import Mathlib

/-!
Shallow embedding of the client-side build/synchronization core of
`polyester/image.py`: the `Mount` two-phase file synchronization, the
`Layer`/`Image` memoized build graph, the `Image.join` polling loop, and
the `DebianSlim` builder helpers.

File bytes are modelled as `List Nat`, paths and digests as `String`.
The remote side is modelled as an explicit client record whose RPCs may
fail (`Except String`), and every remote call, file hash and file read
performed by a synchronization is recorded in an explicit event trace.
-/

/-- Modelled from the spec: the generated protobuf message types
(`api_pb2`) are not part of `src/`; the fields follow the RPC surface of
the spec. `MountRegisterFileRequest(filename, sha256_hex, mount_id)`. -/
structure MountRegisterFileRequest where
  filename : String
  sha256_hex : String
  mount_id : Nat
deriving DecidableEq

/-- Modelled from the spec: the registration response carries the remote
path and an existence flag (the proto field `exists`, positionally
correlated with the request stream). -/
structure MountRegisterFileResponse where
  filename : String
  file_exists : Bool
deriving DecidableEq

/-- Modelled from the spec: `MountUploadFileRequest(data, sha256_hex, size,
mount_id)`. -/
structure MountUploadFileRequest where
  data : List Nat
  sha256_hex : String
  size : Nat
  mount_id : Nat
deriving DecidableEq

/-- The mutable state of a `Mount` instance (`Mount.__init__`):
`local_dir`, `remote_dir`, the memoized `mount_id`, the file-selection
`condition`, and the two lazily populated dictionaries `_hashes`
(local filename → digest) and `_remote_to_local_filename`. -/
structure MountState where
  local_dir : String
  remote_dir : String
  mount_id : Option Nat
  condition : String → Bool
  hashes : List (String × String)
  remote_to_local : List (String × String)

/-- Python dict assignment `d[k] = v` on an association list: overwrite the
existing binding if the key is present, else append a new binding. -/
def dictSet (d : List (String × String)) (k v : String) : List (String × String) :=
  if d.any (fun p => p.1 = k) then d.map (fun p => if p.1 = k then (k, v) else p)
  else d ++ [(k, v)]

/-- Python dict lookup `d[k]`: `none` models a `KeyError`. -/
def dictGet (d : List (String × String)) (k : String) : Option String :=
  (d.find? (fun p => p.1 = k)).map (fun p => p.2)

/-- One observable step of a Mount synchronization: hashing a local file
(`get_sha256_hex`), the four remote RPC interactions, and the re-read of a
missing file's bytes before upload. -/
inductive Event where
  | hashFile (filename : String)
  | rpcMountCreate
  | sendRegister (req : MountRegisterFileRequest)
  | recvResponse (resp : MountRegisterFileResponse)
  | readFile (filename : String)
  | sendUpload (req : MountUploadFileRequest)
  | rpcMountDone (mount_id : Nat)
deriving DecidableEq

/-- The remote side of the Mount RPC surface.  Each call may fail with a
transport/application error (`Except String`). `registerFile` answers one
registration request with its positionally correlated response. -/
structure Client where
  mountCreate : Except String Nat
  registerFile : MountRegisterFileRequest → Except String MountRegisterFileResponse
  uploadFile : MountUploadFileRequest → Except String Unit
  mountDone : Nat → Except String Unit

/-- A never-failing remote whose `MountCreate` yields `mid` and which
reports existence of a registered path according to `srv`. -/
def pureClient (mid : Nat) (srv : String → Bool) : Client :=
  ⟨.ok mid, fun req => .ok ⟨req.filename, srv req.filename⟩, fun _ => .ok (), fun _ => .ok ()⟩

/-- Result of streaming the paired registration/upload phases: the updated
mount state, the event trace, and the error (if any RPC or lookup failed). -/
structure SyncResult where
  state : MountState
  trace : List Event
  err : Option String

/-- The registration/upload stream pair of `Mount._register_file_requests`
and `Mount._upload_file_requests`, executed under the pull-based sequential
semantics of the two chained async generators: for each file (in the order
the tree walk / hashing yields them) the register request is sent (after
recording the remote→local mapping and the digest in the instance
dictionaries), its response is received, and — when the response's
existence flag is false — the file is re-read and one upload request
carrying the re-read bytes, the registration-phase digest
(`self._hashes[filename]`), the byte count and the mount id is sent.
`sha (readH f)` is `get_sha256_hex`: the digest of the bytes read at
hashing time; `readU f` is the second read performed by the upload phase. -/
def sync_files (sha : List Nat → String) (readH readU : String → List Nat)
    (c : Client) (mid : Nat) :
    MountState → List (String × String) → SyncResult
  | m, [] => ⟨m, [], none⟩
  | m, (filename, rel) :: rest =>
    let hex := sha (readH filename)
    let remote_filename := m.remote_dir ++ "/" ++ rel
    let m1 : MountState := { m with
      remote_to_local := dictSet m.remote_to_local remote_filename filename,
      hashes := dictSet m.hashes filename hex }
    let req : MountRegisterFileRequest := ⟨remote_filename, hex, mid⟩
    match c.registerFile req with
    | .error e => ⟨m1, [.hashFile filename, .sendRegister req], some e⟩
    | .ok resp =>
      let evs : List Event := [.hashFile filename, .sendRegister req, .recvResponse resp]
      if resp.file_exists then
        let r := sync_files sha readH readU c mid m1 rest
        ⟨r.state, evs ++ r.trace, r.err⟩
      else
        match dictGet m1.remote_to_local resp.filename with
        | none => ⟨m1, evs, some "KeyError"⟩
        | some lf =>
          let data := readU lf
          match dictGet m1.hashes lf with
          | none => ⟨m1, evs ++ [.readFile lf], some "KeyError"⟩
          | some hx =>
            let upl : MountUploadFileRequest := ⟨data, hx, data.length, mid⟩
            match c.uploadFile upl with
            | .error e => ⟨m1, evs ++ [.readFile lf, .sendUpload upl], some e⟩
            | .ok _ =>
              let r := sync_files sha readH readU c mid m1 rest
              ⟨r.state, evs ++ [.readFile lf, .sendUpload upl] ++ r.trace, r.err⟩

/-- Result of `Mount.start`: final instance state, full event trace, and
either the realized mount id or the error that aborted the call. -/
structure StartResult where
  state : MountState
  trace : List Event
  result : Except String Nat

/-- The body of `Mount.start` past the memoization guard: `MountCreate`,
the registration/upload stream pair over the files of the local tree that
satisfy `condition`, `MountDone`, and only then the caching assignment
`self.mount_id = mount_id`.  `entries` is the `os.walk` enumeration of
`(filename, rel_filename)` pairs. -/
def mount_start_sync (sha : List Nat → String) (readH readU : String → List Nat)
    (c : Client) (entries : List (String × String)) (m : MountState) : StartResult :=
  match c.mountCreate with
  | .error e => ⟨m, [.rpcMountCreate], .error e⟩
  | .ok mid =>
    let files := entries.filter (fun f => m.condition f.1)
    let r := sync_files sha readH readU c mid m files
    match r.err with
    | some e => ⟨r.state, .rpcMountCreate :: r.trace, .error e⟩
    | none =>
      match c.mountDone mid with
      | .error e => ⟨r.state, .rpcMountCreate :: (r.trace ++ [.rpcMountDone mid]), .error e⟩
      | .ok _ =>
        ⟨{ r.state with mount_id := some mid },
         .rpcMountCreate :: (r.trace ++ [.rpcMountDone mid]), .ok mid⟩

/-- `Mount.start`: the guard `if self.mount_id:` is Python *truthiness*,
not an is-set test — `None` and a falsy (zero) cached id both fail it.
Only a nonzero cached id short-circuits; otherwise the full
synchronization body runs again. -/
def mount_start (sha : List Nat → String) (readH readU : String → List Nat)
    (c : Client) (entries : List (String × String)) (m : MountState) : StartResult :=
  match m.mount_id with
  | some (mid + 1) => ⟨m, [], .ok (mid + 1)⟩
  | _ => mount_start_sync sha readH readU c entries m

/-- The upload messages contained in a trace, in the order they were sent. -/
def uploadsOf (t : List Event) : List MountUploadFileRequest :=
  t.filterMap fun e => match e with | .sendUpload r => some r | _ => none

def isUpload : Event → Bool
  | .sendUpload _ => true
  | _ => false

def isRegister : Event → Bool
  | .sendRegister _ => true
  | _ => false

/-- Does any register-file message occur after the first upload-file
message of the trace?  The strict registration/upload phase separation
asserted by the spec says this never happens. -/
def registerAfterUpload (t : List Event) : Bool :=
  (t.dropWhile (fun e => !isUpload e)).any (fun e => isRegister e)

/-- Scanning checker for the per-file happens-before discipline: `r` counts
register messages not yet matched by a missing-flag response, `u` counts
missing-flag responses not yet matched by an upload.  `chk 0 0 t = true`
says that in every prefix of `t` the number of uploads is at most the
number of observed missing-flag responses, which is at most the number of
register messages already sent: no upload precedes its own registration
and existence flag. -/
def chk (r u : Nat) : List Event → Bool
  | [] => true
  | .hashFile _ :: t => chk r u t
  | .rpcMountCreate :: t => chk r u t
  | .sendRegister _ :: t => chk (r + 1) u t
  | .recvResponse resp :: t =>
    if resp.file_exists then chk r u t
    else if r = 0 then false else chk (r - 1) (u + 1) t
  | .readFile _ :: t => chk r u t
  | .sendUpload _ :: t => if u = 0 then false else chk r (u - 1) t
  | .rpcMountDone _ :: t => chk r u t

/-- Modelled from the spec: the generated `GenericResult` proto message is
not part of `src/`; it carries a status enum (whose zero value is the falsy
"no status yet / pending" state), a diagnostic `exception` string, and a
result payload. The concrete nonzero numbering of `FAILURE` and `SUCCESS`
is not in `src/`; only that they are distinct and nonzero matters. -/
structure GenericResult where
  status : Nat
  exception : String
  payload : Nat
deriving DecidableEq

/-- Modelled from the spec: `GenericResult.Status.FAILURE`, a nonzero enum
value distinct from `SUCCESS`. -/
def Status_FAILURE : Nat := 1

/-- Modelled from the spec: `GenericResult.Status.SUCCESS`, a nonzero enum
value distinct from `FAILURE`. -/
def Status_SUCCESS : Nat := 2

/-- Modelled from the spec: the `ImageJoinResponse` proto message wrapping
a `GenericResult`. -/
structure ImageJoinResponse where
  result : GenericResult
deriving DecidableEq

/-- Outcome of `Image.join`: either the response returned on `SUCCESS`, or
the raised `Exception`'s message (both the business `FAILURE` branch and
the unknown-status branch raise a plain `Exception`, so both are modelled
by the same constructor carrying the message). -/
inductive JoinOutcome where
  | success (resp : ImageJoinResponse)
  | failure (msg : String)
deriving DecidableEq

/-- `Image.join`: the polling loop, evaluated against the sequence of
responses successive `ImageJoin` round trips would return.  A zero (falsy)
status loops again; `FAILURE` raises `Exception(result.exception)`;
`SUCCESS` returns the response; any other status raises
`Exception('Unknown status %s!')`.  The returned number counts the round
trips consumed; `none` means the response list was exhausted with the loop
still polling. -/
def join : List ImageJoinResponse → Option (JoinOutcome × Nat)
  | [] => none
  | resp :: rest =>
    if resp.result.status = 0 then
      (join rest).map (fun p => (p.1, p.2 + 1))
    else if resp.result.status = Status_FAILURE then
      some (.failure resp.result.exception, 1)
    else if resp.result.status = Status_SUCCESS then
      some (.success resp, 1)
    else
      some (.failure ("Unknown status " ++ toString resp.result.status ++ "!"), 1)

/-- Modelled from the spec: the `api_pb2.BaseLayer` proto message pairing a
docker tag name with a realized base layer id. -/
structure BaseLayer where
  docker_tag : String
  layer_id : Nat
deriving DecidableEq

/-- Modelled from the spec: the `api_pb2.Layer` proto message: tag,
resolved base layers, ordered dockerfile commands, and inline context
files (the `LayerCreateRequest` payload). -/
structure LayerDef where
  tag : Option String
  base_layers : List BaseLayer
  dockerfile_commands : List String
  context_files : List (String × List Nat)
deriving DecidableEq

/-- The mutable state of one `Layer` node instance (`Layer.__init__`).
`base_layers` maps docker tags to the heap addresses of the referenced
base `Layer` instances (Python object references). -/
structure LayerObj where
  layer_id : Option Nat
  tag : Option String
  base_layers : List (String × Nat)
  dockerfile_commands : List String
  context_files : List (String × List Nat)
deriving DecidableEq

/-- The store of allocated `Layer` and `Mount` instances; a Python object
reference is an index into the corresponding list. -/
structure Heap where
  layers : List LayerObj
  mounts : List MountState

/-- One issued `LayerCreate` RPC: the heap address of the `Layer` instance
that issued it, the sequence number of the call, the request payload, and
the layer id the remote assigned (`none` when the call failed). -/
structure LayerEvent where
  addr : Nat
  idx : Nat
  req : LayerDef
  rid : Option Nat
deriving DecidableEq

/-- The remote `LayerCreate` endpoint: from the call sequence number and
the request, either an assigned layer id or an error. -/
def LayerClient : Type := Nat → LayerDef → Except String Nat

/-- A never-failing remote that assigns layer id `1000 + i` to the `i`-th
`LayerCreate` call. -/
def freshLayerClient : LayerClient := fun i _ => .ok (1000 + i)

/-- In-place update of the list element at index `i` (out-of-range indices
leave the list unchanged). -/
def listModify {α : Type} (f : α → α) : Nat → List α → List α
  | _, [] => []
  | 0, x :: t => f x :: t
  | n + 1, x :: t => x :: listModify f n t

/-- The Python attribute assignment `self.layer_id = response.layer_id` on
the instance at address `a`. -/
def setLayerId (h : Heap) (a : Nat) (lid : Nat) : Heap :=
  { h with layers := listModify (fun o => { o with layer_id := some lid }) a h.layers }

/-- The `layer_id` attribute of the instance at address `a` (`none` when
unset or when `a` is not an allocated instance). -/
def idAt (h : Heap) (a : Nat) : Option Nat :=
  (h.layers[a]?).bind (fun o => o.layer_id)

/-- Result of a `Layer.start` run: the realized layer id or the raised
error, the heap after the run's attribute assignments, the next
`LayerCreate` call sequence number, and the issued `LayerCreate` calls. -/
structure LayerRunResult where
  result : Except String Nat
  heap : Heap
  counter : Nat
  trace : List LayerEvent

/-- Result of realizing a node's base-layer dict. -/
structure BasesResult where
  result : Except String (List BaseLayer)
  heap : Heap
  counter : Nat
  trace : List LayerEvent

/-- The `for docker_tag, layer in self.base_layers.items()` loop of
`Layer.start`: realize each referenced base instance in dict order via
`step` (the recursive `layer.start(client)` call), collecting one
`BaseLayer(docker_tag, layer_id)` per entry; a failed recursive
realization aborts the loop and propagates the error. -/
def realize_bases (step : Heap → Nat → Nat → LayerRunResult) :
    Heap → Nat → List (String × Nat) → BasesResult
  | h, n, [] => ⟨.ok [], h, n, []⟩
  | h, n, (docker_tag, layerAddr) :: rest =>
    let r := step h n layerAddr
    match r.result with
    | .error e => ⟨.error e, r.heap, r.counter, r.trace⟩
    | .ok lid =>
      let r2 := realize_bases step r.heap r.counter rest
      match r2.result with
      | .error e => ⟨.error e, r2.heap, r2.counter, r.trace ++ r2.trace⟩
      | .ok bls => ⟨.ok (⟨docker_tag, lid⟩ :: bls), r2.heap, r2.counter, r.trace ++ r2.trace⟩

/-- `Layer.start` on the instance at address `a`: return the cached
`layer_id` if set; otherwise recursively realize the base layers, submit
one `LayerCreate` request built from the instance's attributes, and cache
the assigned id on the instance.  `fuel` bounds the recursion depth
(Python's recursion limit); a cyclic reference graph exhausts it. -/
def layer_start (c : LayerClient) : Nat → Heap → Nat → Nat → LayerRunResult
  | 0, h, n, _ => ⟨.error "maximum recursion depth exceeded", h, n, []⟩
  | fuel + 1, h, n, a =>
    match h.layers[a]? with
    | none => ⟨.error "invalid layer reference", h, n, []⟩
    | some obj =>
      match obj.layer_id with
      | some lid => ⟨.ok lid, h, n, []⟩
      | none =>
        let rb := realize_bases (layer_start c fuel) h n obj.base_layers
        match rb.result with
        | .error e => ⟨.error e, rb.heap, rb.counter, rb.trace⟩
        | .ok bls =>
          let req : LayerDef := ⟨obj.tag, bls, obj.dockerfile_commands, obj.context_files⟩
          match c rb.counter req with
          | .error e => ⟨.error e, rb.heap, rb.counter + 1, rb.trace ++ [⟨a, rb.counter, req, none⟩]⟩
          | .ok lid =>
            ⟨.ok lid, setLayerId rb.heap a lid, rb.counter + 1,
             rb.trace ++ [⟨a, rb.counter, req, some lid⟩]⟩

/-- Number of `LayerCreate` RPCs issued for the instance at address `b`. -/
def cnt (b : Nat) (tr : List LayerEvent) : Nat :=
  (tr.filter (fun e => e.addr = b)).length

/-- The content attributes of a `Layer` instance, with the mutable
memoization field cleared. -/
def stripId (o : LayerObj) : LayerObj := { o with layer_id := none }

/-- Decidable acyclicity certificate: under the rank function `rk`, every
base-layer reference strictly descends.  `a` is the address offset of the
first element of `l`. -/
def rankedFrom (rk : Nat → Nat) : Nat → List LayerObj → Bool
  | _, [] => true
  | a, o :: t => o.base_layers.all (fun p => decide (rk p.2 < rk a)) && rankedFrom rk (a + 1) t

/-- The heap's layer-reference graph is a DAG, certified by rank `rk`. -/
def rankedChk (h : Heap) (rk : Nat → Nat) : Bool := rankedFrom rk 0 h.layers

/-- The characters of `os.path.basename`: everything after the last `/`. -/
def afterLastSlash (cs : List Char) : List Char :=
  cs.foldl (fun acc c => if c = '/' then [] else acc ++ [c]) []

/-- `os.path.splitext(s)[-1]`: the extension of the basename, split at the
last dot; empty when there is no dot or when every character before the
last dot of the basename is itself a dot (leading dots are not an
extension separator). -/
def splitext_ext (s : String) : String :=
  let base := afterLastSlash s.toList
  let rev := base.reverse
  let afterDot := rev.takeWhile (fun c => c ≠ '.')
  if afterDot.length = rev.length then ""
  else
    let beforeDot := rev.drop (afterDot.length + 1)
    if beforeDot.any (fun c => c ≠ '.') then String.mk ('.' :: afterDot.reverse) else ""

/-- The module-level default mount: all `.py` files of the current working
directory, uploaded into `/root`. -/
def mount_py_in_workdir_into_root : MountState :=
  ⟨".", "/root", none, fun filename => splitext_ext filename == ".py", [], []⟩

/-- The heap address of the module-level `mount_py_in_workdir_into_root`
singleton, allocated at import time. -/
def defaultMountAddr : Nat := 0

/-- The heap right after module import: no `Layer` instances yet, and the
single module-level default `Mount` instance. -/
def initHeap : Heap := ⟨[], [mount_py_in_workdir_into_root]⟩

/-- A `DebianSlim` image instance: the address of its root `Layer`, the
addresses of its mounts, the memoized `image_id`, and `python_version`. -/
structure ImageObj where
  layer : Nat
  mounts : List Nat
  image_id : Option Nat
  python_version : String
deriving DecidableEq

/-- `DebianSlim.__init__`: default the python version to the interpreter's
`sys.version_info`, allocate a tagged base layer when none is given, and
set `mounts=[mount_py_in_workdir_into_root]` — every instance references
the same module-level `Mount` singleton. -/
def DebianSlim_init (h : Heap) (layer : Option Nat) (python_version : Option String)
    (sys_version : String) : Heap × ImageObj :=
  let pv := python_version.getD sys_version
  match layer with
  | some a => (h, ⟨a, [defaultMountAddr], none, pv⟩)
  | none =>
    let a := h.layers.length
    ({ h with layers := h.layers ++
        [⟨none, some ("python-" ++ pv ++ "-slim-buster-base"), [], [], []⟩] },
     ⟨a, [defaultMountAddr], none, pv⟩)

/-- `DebianSlim.add_python_packages`: allocate a fresh builder layer and a
fresh composed layer whose bases are the receiver's layer (as `base`) and
the builder, then return a brand-new `DebianSlim` built on the new layer. -/
def add_python_packages (h : Heap) (self : ImageObj) (python_packages : List String)
    (sys_version : String) : Heap × ImageObj :=
  let builderAddr := h.layers.length
  let h1 : Heap := { h with layers := h.layers ++
      [⟨none, some ("python-" ++ self.python_version ++ "-slim-buster-builder"), [], [], []⟩] }
  let layerAddr := h1.layers.length
  let h2 : Heap := { h1 with layers := h1.layers ++
      [⟨none, none,
        [("base", self.layer), ("builder", builderAddr)],
        ["FROM builder as builder-vehicle",
         "RUN pip wheel " ++ String.intercalate " " python_packages ++ " -w /tmp/wheels",
         "FROM base",
         "COPY --from=builder-vehicle /tmp/wheels /tmp/wheels",
         "RUN pip install /tmp/wheels/*",
         "RUN rm -rf /tmp/wheels"], []⟩] }
  DebianSlim_init h2 (some layerAddr) none sys_version

/-- `DebianSlim.run_commands`: allocate a fresh layer whose single base is
the receiver's layer and whose commands are `FROM base` followed by one
`RUN` per command, then return a brand-new `DebianSlim` built on it. -/
def run_commands (h : Heap) (self : ImageObj) (commands : List String)
    (sys_version : String) : Heap × ImageObj :=
  let layerAddr := h.layers.length
  let h1 : Heap := { h with layers := h.layers ++
      [⟨none, none, [("base", self.layer)],
        "FROM base" :: commands.map (fun command => "RUN " ++ command), []⟩] }
  DebianSlim_init h1 (some layerAddr) none sys_version

/-- Concrete digest function for witnesses: distinguishes the hash-time
bytes `[1]` from anything else. -/
def sha1 : List Nat → String := fun bs => if bs = [1] then "digest-at-hash-time" else "digest-of-other-bytes"

/-- Concrete hash-time read for witnesses: every file holds `[1]`. -/
def readH1 : String → List Nat := fun _ => [1]

/-- Concrete upload-time read for witnesses: the file changed after
hashing and now holds `[1, 2]`. -/
def readU1 : String → List Nat := fun _ => [1, 2]

/-- Concrete existence oracle for witnesses: only `/root/b` is already
present remotely. -/
def srv1 : String → Bool := fun p => p == "/root/b"

/-- A fresh two-file mount state for witnesses. -/
def m0 : MountState := ⟨".", "/root", none, fun _ => true, [], []⟩

/-- A two-file tree walk for witnesses. -/
def entries2 : List (String × String) := [("a", "a"), ("b", "b")]

/-- A remote whose every RPC fails, for the failure-path witnesses. -/
def failClient : Client :=
  ⟨.error "boom", fun _ => .error "boom", fun _ => .error "boom", fun _ => .error "boom"⟩

/-- Two separately constructed `Layer` instances with identical content
(addresses 0 and 1) and one parent referencing each (addresses 2 and 3). -/
def twinHeap : Heap :=
  ⟨[⟨none, some "x", [], ["RUN a"], []⟩,
    ⟨none, some "x", [], ["RUN a"], []⟩,
    ⟨none, none, [("base", 0)], [], []⟩,
    ⟨none, none, [("base", 1)], [], []⟩], []⟩

/-- One shared child `Layer` instance (address 0) referenced as a base by
two distinct parent instances (addresses 1 and 2). -/
def sharedHeap : Heap :=
  ⟨[⟨none, some "child", [], [], []⟩,
    ⟨none, none, [("base", 0)], ["FROM base"], []⟩,
    ⟨none, none, [("base", 0)], ["FROM base", "RUN x"], []⟩], []⟩

/-- A remote `LayerCreate` endpoint that fails exactly on call number `k`
and otherwise assigns id `1000 + i` to call `i`. -/
def failAtLayerClient (k : Nat) : LayerClient :=
  fun i _ => if i = k then .error "boom" else .ok (1000 + i)

/-- The content (non-memoization) part of the layer store. -/
def layersStrip (h : Heap) : List LayerObj := h.layers.map stripId

/-- Frame/monotonicity relation of a single `Layer.start` run (or of one
segment of one): contents are untouched, already-cached ids survive and
are never re-created, and an address with no `LayerCreate` event keeps its
id field. -/
def PRun (h hp : Heap) (tr : List LayerEvent) : Prop :=
  layersStrip hp = layersStrip h ∧ hp.mounts = h.mounts ∧
  (∀ b l, idAt h b = some l → idAt hp b = some l ∧ cnt b tr = 0) ∧
  (∀ b, cnt b tr = 0 → idAt hp b = idAt h b)

/-- Memoization discipline of a successful run segment: at most one
`LayerCreate` per instance, and an instance is created only when its id
was unset, after which it is set. -/
def GO (h hp : Heap) (tr : List LayerEvent) : Prop :=
  (∀ b, cnt b tr = 0 → idAt hp b = idAt h b) ∧
  ∀ b, cnt b tr ≤ 1 ∧ (cnt b tr = 1 → idAt h b = none ∧ (idAt hp b).isSome = true)

/-- The `LayerCreateRequest` payload `Layer.start` builds from the
instance's attributes and the realized base-layer list. -/
def reqOf (obj : LayerObj) (bls : List BaseLayer) : LayerDef :=
  ⟨obj.tag, bls, obj.dockerfile_commands, obj.context_files⟩

theorem find?_dictSet_hit (k v : String) (d : List (String × String))
    (h : d.any (fun p => p.1 = k) = true) :
    (d.map (fun p => if p.1 = k then (k, v) else p)).find? (fun p => p.1 = k) = some (k, v) := by
  induction d with
  | nil => simp at h
  | cons p t ih =>
    by_cases hp : p.1 = k
    · simp [hp]
    · simp only [List.any_cons, Bool.or_eq_true, decide_eq_true_eq] at h
      rcases h with h | h
      · exact absurd h hp
      · simpa [hp] using ih h

theorem find?_dictSet_miss (k v : String) (d : List (String × String))
    (h : d.any (fun p => p.1 = k) = false) :
    (d ++ [(k, v)]).find? (fun p => p.1 = k) = some (k, v) := by
  induction d with
  | nil => simp
  | cons p t ih =>
    simp only [List.any_cons, Bool.or_eq_false_iff, decide_eq_false_iff_not] at h
    simpa [h.1] using ih h.2

/-- Inserting a binding and looking it up yields the inserted value. -/
theorem dictGet_dictSet (d : List (String × String)) (k v : String) :
    dictGet (dictSet d k v) k = some v := by
  unfold dictGet dictSet
  by_cases h : d.any (fun p => p.1 = k) = true
  · rw [if_pos h, find?_dictSet_hit k v d h]
    rfl
  · have hf : d.any (fun p => p.1 = k) = false := by
      revert h
      cases d.any (fun p => p.1 = k) <;> simp
    rw [if_neg h, find?_dictSet_miss k v d hf]
    rfl

theorem uploadsOf_nil : uploadsOf [] = [] := rfl

theorem uploadsOf_append (t1 t2 : List Event) :
    uploadsOf (t1 ++ t2) = uploadsOf t1 ++ uploadsOf t2 :=
  List.filterMap_append t1 t2 _

theorem sync_files_mount_id (sha : List Nat → String) (readH readU : String → List Nat)
    (c : Client) (mid : Nat) (files : List (String × String)) :
    ∀ m : MountState, (sync_files sha readH readU c mid m files).state.mount_id = m.mount_id := by
  induction files with
  | nil => intro m; simp [sync_files]
  | cons f rest ih =>
    intro m
    obtain ⟨filename, rel⟩ := f
    simp only [sync_files]
    split
    · rfl
    · split
      · exact ih _
      · split
        · rfl
        · split
          · rfl
          · split
            · rfl
            · exact ih _

theorem sync_files_uploads (sha : List Nat → String) (readH readU : String → List Nat)
    (srv : String → Bool) (mid0 mid : Nat) (files : List (String × String)) :
    ∀ m : MountState,
    uploadsOf (sync_files sha readH readU (pureClient mid0 srv) mid m files).trace
      = (files.filter (fun f => !srv (m.remote_dir ++ "/" ++ f.2))).map
          (fun f => ⟨readU f.1, sha (readH f.1), (readU f.1).length, mid⟩) := by
  induction files with
  | nil => intro m; simp [sync_files, uploadsOf]
  | cons f rest ih =>
    intro m
    obtain ⟨filename, rel⟩ := f
    cases hs : srv (m.remote_dir ++ "/" ++ rel) with
    | true =>
      simp only [sync_files, pureClient, hs, if_true, uploadsOf, List.filterMap_append,
        List.filterMap_cons, List.filter_cons, Bool.not_true, if_false]
      simpa [uploadsOf] using ih _
    | false =>
      simp only [sync_files, pureClient, hs, Bool.false_eq_true, if_false, dictGet_dictSet,
        uploadsOf, List.filterMap_append, List.filterMap_cons, List.filter_cons,
        Bool.not_false, if_true]
      simpa [uploadsOf] using ih _

theorem chk_sync_files (sha : List Nat → String) (readH readU : String → List Nat)
    (c : Client) (mid : Nat) (files : List (String × String)) :
    ∀ (m : MountState) (r u : Nat) (t' : List Event),
    (∀ r' u', chk r' u' t' = true) →
    chk r u ((sync_files sha readH readU c mid m files).trace ++ t') = true := by
  induction files with
  | nil => intro m r u t' h; simpa using h r u
  | cons f rest ih =>
    intro m r u t' h
    obtain ⟨filename, rel⟩ := f
    simp only [sync_files]
    split
    · simpa [chk] using h (r + 1) u
    · rename_i resp heq
      by_cases hex : resp.file_exists = true
      · simp only [hex, if_true, List.cons_append, List.append_assoc, List.nil_append, chk]
        exact ih _ _ _ _ h
      · have hex' : resp.file_exists = false := by revert hex; cases resp.file_exists <;> simp
        simp only [hex', Bool.false_eq_true, if_false]
        split
        · simpa [chk, hex'] using h r (u + 1)
        · split
          · simpa [chk, hex'] using h r (u + 1)
          · split
            · simpa [chk, hex'] using h r u
            · simpa [chk, hex'] using ih _ r u t' h

theorem mount_start_eq_cached (sha : List Nat → String) (readH readU : String → List Nat)
    (c : Client) (entries : List (String × String)) (m : MountState) (mid : Nat)
    (hm : m.mount_id = some (mid + 1)) :
    mount_start sha readH readU c entries m = ⟨m, [], .ok (mid + 1)⟩ := by
  simp [mount_start, hm]

theorem mount_start_eq_sync_none (sha : List Nat → String) (readH readU : String → List Nat)
    (c : Client) (entries : List (String × String)) (m : MountState)
    (hm : m.mount_id = none) :
    mount_start sha readH readU c entries m = mount_start_sync sha readH readU c entries m := by
  simp [mount_start, hm]

theorem mount_start_eq_sync_zero (sha : List Nat → String) (readH readU : String → List Nat)
    (c : Client) (entries : List (String × String)) (m : MountState)
    (hm : m.mount_id = some 0) :
    mount_start sha readH readU c entries m = mount_start_sync sha readH readU c entries m := by
  simp [mount_start, hm]

theorem mount_start_sync_ok_mount_id (sha : List Nat → String)
    (readH readU : String → List Nat) (c : Client) (entries : List (String × String))
    (m : MountState) (mid : Nat) :
    (mount_start_sync sha readH readU c entries m).result = .ok mid →
    (mount_start_sync sha readH readU c entries m).state.mount_id = some mid := by
  cases hcr : c.mountCreate with
  | error e => simp [mount_start_sync, hcr]
  | ok mid0 =>
    simp only [mount_start_sync, hcr]
    cases herr : (sync_files sha readH readU c mid0 m
        (entries.filter (fun f => m.condition f.1))).err with
    | some e => simp [herr]
    | none =>
      cases hd : c.mountDone mid0 with
      | error e => simp [herr, hd]
      | ok un => simp [herr, hd]

theorem mount_start_ok_mount_id (sha : List Nat → String) (readH readU : String → List Nat)
    (c : Client) (entries : List (String × String)) (m : MountState) (mid : Nat) :
    (mount_start sha readH readU c entries m).result = .ok mid →
    (mount_start sha readH readU c entries m).state.mount_id = some mid := by
  cases hm : m.mount_id with
  | none =>
    rw [mount_start_eq_sync_none sha readH readU c entries m hm]
    exact mount_start_sync_ok_mount_id sha readH readU c entries m mid
  | some mid' =>
    cases mid' with
    | zero =>
      rw [mount_start_eq_sync_zero sha readH readU c entries m hm]
      exact mount_start_sync_ok_mount_id sha readH readU c entries m mid
    | succ k =>
      rw [mount_start_eq_cached sha readH readU c entries m k hm]
      intro h
      obtain rfl : k + 1 = mid := by simpa using h
      exact hm

theorem mount_start_sync_error_state (sha : List Nat → String)
    (readH readU : String → List Nat) (c : Client) (entries : List (String × String))
    (m : MountState) (e : String) :
    (mount_start_sync sha readH readU c entries m).result = .error e →
    (mount_start_sync sha readH readU c entries m).state.mount_id = m.mount_id := by
  cases hcr : c.mountCreate with
  | error e' => simp [mount_start_sync, hcr]
  | ok mid0 =>
    simp only [mount_start_sync, hcr]
    cases herr : (sync_files sha readH readU c mid0 m
        (entries.filter (fun f => m.condition f.1))).err with
    | some e' =>
      intro _
      simpa [herr] using sync_files_mount_id sha readH readU c mid0 _ m
    | none =>
      cases hd : c.mountDone mid0 with
      | error e' =>
        intro _
        simpa [herr, hd] using sync_files_mount_id sha readH readU c mid0 _ m
      | ok un => simp [herr, hd]

theorem mount_start_error_state (sha : List Nat → String) (readH readU : String → List Nat)
    (c : Client) (entries : List (String × String)) (m : MountState) (e : String) :
    (mount_start sha readH readU c entries m).result = .error e →
    (mount_start sha readH readU c entries m).state.mount_id = m.mount_id := by
  cases hm : m.mount_id with
  | none =>
    rw [mount_start_eq_sync_none sha readH readU c entries m hm]
    intro he
    rw [mount_start_sync_error_state sha readH readU c entries m e he, hm]
  | some mid' =>
    cases mid' with
    | zero =>
      rw [mount_start_eq_sync_zero sha readH readU c entries m hm]
      intro he
      rw [mount_start_sync_error_state sha readH readU c entries m e he, hm]
    | succ k =>
      rw [mount_start_eq_cached sha readH readU c entries m k hm]
      simp

theorem mount_start_sync_trace_head (sha : List Nat → String)
    (readH readU : String → List Nat) (c : Client) (entries : List (String × String))
    (m : MountState) :
    (mount_start_sync sha readH readU c entries m).trace.head?
      = some Event.rpcMountCreate := by
  cases hcr : c.mountCreate with
  | error e => simp [mount_start_sync, hcr]
  | ok mid0 =>
    simp only [mount_start_sync, hcr]
    cases herr : (sync_files sha readH readU c mid0 m
        (entries.filter (fun f => m.condition f.1))).err with
    | some e => simp [herr]
    | none =>
      cases hd : c.mountDone mid0 with
      | error e => simp [herr, hd]
      | ok un => simp [herr, hd]

theorem mount_start_none_trace_head (sha : List Nat → String) (readH readU : String → List Nat)
    (c : Client) (entries : List (String × String)) (m : MountState)
    (hm : m.mount_id = none) :
    (mount_start sha readH readU c entries m).trace.head? = some Event.rpcMountCreate := by
  rw [mount_start_eq_sync_none sha readH readU c entries m hm]
  exact mount_start_sync_trace_head sha readH readU c entries m

/-- C1: during a fresh Mount synchronization against a remote reporting
existence by `srv`, the stream of upload messages is exactly one message
per registered file whose existence flag is false (none for files flagged
as existing), and each message carries the file's re-read full bytes
(`readU`), their length as `size`, and the digest computed during the
registration phase from the hash-time bytes (`sha (readH f)`), not a
digest recomputed from the re-read bytes. -/
theorem claim_C1 (sha : List Nat → String) (readH readU : String → List Nat)
    (srv : String → Bool) (mid0 : Nat) (entries : List (String × String)) (m : MountState)
    (h : m.mount_id = none) :
    uploadsOf (mount_start sha readH readU (pureClient mid0 srv) entries m).trace
      = ((entries.filter (fun f => m.condition f.1)).filter
          (fun f => !srv (m.remote_dir ++ "/" ++ f.2))).map
          (fun f => ⟨readU f.1, sha (readH f.1), (readU f.1).length, mid0⟩) := by
  have hcr : (pureClient mid0 srv).mountCreate = Except.ok mid0 := rfl
  have hd : (pureClient mid0 srv).mountDone mid0 = Except.ok () := rfl
  rw [mount_start_eq_sync_none sha readH readU (pureClient mid0 srv) entries m h]
  simp only [mount_start_sync, hcr]
  cases herr : (sync_files sha readH readU (pureClient mid0 srv) mid0 m
      (entries.filter (fun f => m.condition f.1))).err with
  | some e =>
    simpa [uploadsOf] using sync_files_uploads sha readH readU srv mid0 mid0
      (entries.filter (fun f => m.condition f.1)) m
  | none =>
    simp only [herr, hd]
    simpa [uploadsOf] using sync_files_uploads sha readH readU srv mid0 mid0
      (entries.filter (fun f => m.condition f.1)) m

theorem claim_C1_witness :
    m0.mount_id = none ∧
    uploadsOf (mount_start sha1 readH1 readU1 (pureClient 7 srv1) entries2 m0).trace
      = ((entries2.filter (fun f => m0.condition f.1)).filter
          (fun f => !srv1 (m0.remote_dir ++ "/" ++ f.2))).map
          (fun f => ⟨readU1 f.1, sha1 (readH1 f.1), (readU1 f.1).length, 7⟩) :=
  ⟨rfl, claim_C1 sha1 readH1 readU1 srv1 7 entries2 m0 rfl⟩

/-- C3 counterexample: `if self.mount_id:` is a truthiness guard, so a
start that succeeded with a falsy (zero) mount id caches it — the mount's
`mount_id` is set — and yet the next `start` call does not short-circuit:
it issues `MountCreate` again and re-runs the whole synchronization,
refuting "zero further RPCs" for a cached-but-falsy id. -/
theorem claim_C3_counterexample :
    (mount_start sha1 readH1 readU1 (pureClient 0 srv1) entries2 m0).result = .ok 0 ∧
    (mount_start sha1 readH1 readU1 (pureClient 0 srv1) entries2 m0).state.mount_id
      = some 0 ∧
    (mount_start sha1 readH1 readU1 (pureClient 0 srv1) entries2
        (mount_start sha1 readH1 readU1 (pureClient 0 srv1) entries2 m0).state).trace.head?
      = some Event.rpcMountCreate :=
  ⟨rfl, rfl, rfl⟩

/-- C3 (amended): after a `Mount.start` call has succeeded with a truthy
(nonzero) mount id, every subsequent `start` call — under any digest
function, any file reads, any client and any tree walk — returns the
cached mount id unchanged, with an empty event trace: zero further RPCs,
file hashes or file reads, and an unchanged mount state.  A falsy cached
id fails the `if self.mount_id:` truthiness guard and triggers a full
re-synchronization instead. -/
theorem claim_C3_amended (sha sha' : List Nat → String)
    (readH readU readH' readU' : String → List Nat)
    (c c' : Client) (entries entries' : List (String × String)) (m : MountState) (mid : Nat)
    (hp : (mount_start sha readH readU c entries m).result = .ok mid) (hmid : mid ≠ 0) :
    mount_start sha' readH' readU' c' entries' (mount_start sha readH readU c entries m).state
      = ⟨(mount_start sha readH readU c entries m).state, [], .ok mid⟩ := by
  have hm := mount_start_ok_mount_id sha readH readU c entries m mid hp
  obtain ⟨k, rfl⟩ : ∃ k, mid = k + 1 := by
    cases mid with
    | zero => exact absurd rfl hmid
    | succ k => exact ⟨k, rfl⟩
  exact mount_start_eq_cached sha' readH' readU' c' entries' _ k hm

theorem claim_C3_amended_witness :
    ((mount_start sha1 readH1 readU1 (pureClient 7 srv1) entries2 m0).result = .ok 7 ∧
      (7 : Nat) ≠ 0) ∧
    mount_start sha1 readH1 readU1 failClient entries2
        (mount_start sha1 readH1 readU1 (pureClient 7 srv1) entries2 m0).state
      = ⟨(mount_start sha1 readH1 readU1 (pureClient 7 srv1) entries2 m0).state, [], .ok 7⟩ :=
  ⟨⟨rfl, by decide⟩, claim_C3_amended sha1 sha1 readH1 readU1 readH1 readU1
    (pureClient 7 srv1) failClient entries2 entries2 m0 7 rfl (by decide)⟩

/-- C4: if a fresh `Mount.start` aborts with an error (any failing remote
RPC — `MountCreate`, the registration/upload streams, or `MountDone` —
surfaces this way), the mount's `mount_id` is still unset afterwards, and
therefore any later `start` call does not short-circuit: its first event
is again the `MountCreate` RPC of a full re-synchronization. -/
theorem claim_C4 (sha : List Nat → String) (readH readU : String → List Nat)
    (c : Client) (entries : List (String × String)) (m : MountState) (e : String)
    (h0 : m.mount_id = none)
    (he : (mount_start sha readH readU c entries m).result = .error e) :
    (mount_start sha readH readU c entries m).state.mount_id = none ∧
    ∀ (sha' : List Nat → String) (readH' readU' : String → List Nat) (c' : Client)
      (entries' : List (String × String)),
      (mount_start sha' readH' readU' c' entries'
        (mount_start sha readH readU c entries m).state).trace.head?
        = some Event.rpcMountCreate := by
  have h1 : (mount_start sha readH readU c entries m).state.mount_id = none := by
    rw [mount_start_error_state sha readH readU c entries m e he, h0]
  exact ⟨h1, fun sha' readH' readU' c' entries' =>
    mount_start_none_trace_head sha' readH' readU' c' entries' _ h1⟩

theorem claim_C4_witness :
    (m0.mount_id = none ∧
      (mount_start sha1 readH1 readU1 failClient entries2 m0).result = .error "boom") ∧
    ((mount_start sha1 readH1 readU1 failClient entries2 m0).state.mount_id = none ∧
    ∀ (sha' : List Nat → String) (readH' readU' : String → List Nat) (c' : Client)
      (entries' : List (String × String)),
      (mount_start sha' readH' readU' c' entries'
        (mount_start sha1 readH1 readU1 failClient entries2 m0).state).trace.head?
        = some Event.rpcMountCreate) :=
  ⟨⟨rfl, rfl⟩, claim_C4 sha1 readH1 readU1 failClient entries2 m0 "boom" rfl rfl⟩

/-- C6 counterexample: a concrete synchronization of two files that are
both missing remotely sends the upload message for the first file before
the register message for the second file — a register-file message occurs
after an upload-file message, so the claimed strict phase separation
("no upload before all registrations are sent") fails on the code's
streamed pipeline. -/
theorem claim_C6_counterexample :
    registerAfterUpload (mount_start sha1 readH1 readU1
      (pureClient 7 (fun _ => false)) entries2 m0).trace = true := by decide

/-- C6 (amended): the registration and upload phases are pipelined
per file, not strictly separated: what the code guarantees is the
per-file happens-before — in every prefix of the synchronization trace,
the number of upload messages sent is at most the number of missing-flag
registration responses observed, which is at most the number of register
messages already sent (each upload follows its own file's registration
and existence flag, but may precede later files' registrations). -/
theorem claim_C6_amended (sha : List Nat → String) (readH readU : String → List Nat)
    (c : Client) (entries : List (String × String)) (m : MountState) :
    chk 0 0 (mount_start sha readH readU c entries m).trace = true := by
  have hsync : chk 0 0 (mount_start_sync sha readH readU c entries m).trace = true := by
    cases hcr : c.mountCreate with
    | error e => simp [mount_start_sync, hcr, chk]
    | ok mid =>
      simp only [mount_start_sync, hcr]
      cases herr : (sync_files sha readH readU c mid m
          (entries.filter (fun f => m.condition f.1))).err with
      | some e =>
        simp only [herr, chk]
        simpa using chk_sync_files sha readH readU c mid
          (entries.filter (fun f => m.condition f.1)) m 0 0 []
          (by intro r' u'; simp [chk])
      | none =>
        cases hd : c.mountDone mid with
        | error e =>
          simp only [herr, hd, chk]
          exact chk_sync_files sha readH readU c mid
            (entries.filter (fun f => m.condition f.1)) m 0 0 [Event.rpcMountDone mid]
            (by intro r' u'; simp [chk])
        | ok un =>
          simp only [herr, hd, chk]
          exact chk_sync_files sha readH readU c mid
            (entries.filter (fun f => m.condition f.1)) m 0 0 [Event.rpcMountDone mid]
            (by intro r' u'; simp [chk])
  cases hm : m.mount_id with
  | none => rw [mount_start_eq_sync_none sha readH readU c entries m hm]; exact hsync
  | some mid =>
    cases mid with
    | zero => rw [mount_start_eq_sync_zero sha readH readU c entries m hm]; exact hsync
    | succ k => rw [mount_start_eq_cached sha readH readU c entries m k hm]; simp [chk]

/-- C2: `Image.join` polling — the response sequence
`[Pending, Pending, Success(payload 42)]` returns the success response
carrying payload `42` after exactly 3 round trips; `[Pending,
Failure("boom")]` raises the failure carrying `"boom"` after exactly 2
round trips; and a response with any status other than the falsy pending
value, `FAILURE` and `SUCCESS` raises the protocol-violation error
immediately, after exactly 1 round trip, ignoring every subsequent
response (no retry of that response, no further polling). -/
theorem claim_C2 :
    join [⟨⟨0, "", 0⟩⟩, ⟨⟨0, "", 0⟩⟩, ⟨⟨Status_SUCCESS, "", 42⟩⟩]
        = some (.success ⟨⟨Status_SUCCESS, "", 42⟩⟩, 3) ∧
    join [⟨⟨0, "", 0⟩⟩, ⟨⟨Status_FAILURE, "boom", 0⟩⟩] = some (.failure "boom", 2) ∧
    ∀ (s : Nat) (exc : String) (pay : Nat) (rest : List ImageJoinResponse),
      s ≠ 0 → s ≠ Status_FAILURE → s ≠ Status_SUCCESS →
      join (⟨⟨s, exc, pay⟩⟩ :: rest)
        = some (.failure ("Unknown status " ++ toString s ++ "!"), 1) := by
  refine ⟨by decide, by decide, ?_⟩
  intro s exc pay rest h0 hf hs
  simp [join, h0, hf, hs]

theorem claim_C2_witness :
    (5 ≠ 0 ∧ 5 ≠ Status_FAILURE ∧ 5 ≠ Status_SUCCESS) ∧
    join [⟨⟨5, "", 0⟩⟩, ⟨⟨Status_SUCCESS, "", 42⟩⟩]
      = some (.failure ("Unknown status " ++ toString 5 ++ "!"), 1) :=
  ⟨⟨by decide, by decide, by decide⟩,
    claim_C2.2.2 5 "" 0 [⟨⟨Status_SUCCESS, "", 42⟩⟩] (by decide) (by decide) (by decide)⟩

/-- C7 counterexample: the unknown-status branch and the business-failure
branch both raise a plain `Exception`, distinguished only by the message
text — a remote business failure whose diagnostic happens to be exactly
`"Unknown status 5!"` yields precisely the same join outcome as an
unrecognized status value `5`, so a caller cannot tell the two apart. -/
theorem claim_C7_counterexample :
    join [⟨⟨Status_FAILURE, "Unknown status 5!", 0⟩⟩] = join [⟨⟨5, "", 0⟩⟩] := by decide

/-- C7 (amended): an unrecognized status makes `join` fail immediately
with the error message `"Unknown status <s>!"`, never retried (every
subsequent response is ignored); but it is raised as the same plain
exception type as a business failure, so the two are distinguishable
exactly when the remote-supplied diagnostic differs from that formatted
message — not unconditionally. -/
theorem claim_C7_amended :
    (∀ (s : Nat) (exc : String) (pay : Nat) (rest : List ImageJoinResponse),
      s ≠ 0 → s ≠ Status_FAILURE → s ≠ Status_SUCCESS →
      join (⟨⟨s, exc, pay⟩⟩ :: rest)
        = some (.failure ("Unknown status " ++ toString s ++ "!"), 1)) ∧
    ∀ (s : Nat) (msg : String) (pay pay' : Nat),
      msg ≠ "Unknown status " ++ toString s ++ "!" →
      s ≠ 0 → s ≠ Status_FAILURE → s ≠ Status_SUCCESS →
      join [⟨⟨Status_FAILURE, msg, pay⟩⟩] ≠ join [⟨⟨s, "", pay'⟩⟩] := by
  constructor
  · intro s exc pay rest h0 hf hs
    simp [join, h0, hf, hs]
  · intro s msg pay pay' hmsg h0 hf hs
    simp [join, h0, hf, hs]
    exact fun _ => hmsg

theorem claim_C7_amended_witness :
    (5 ≠ 0 ∧ 5 ≠ Status_FAILURE ∧ 5 ≠ Status_SUCCESS ∧
      "the build exploded" ≠ "Unknown status " ++ toString 5 ++ "!") ∧
    join ((⟨⟨5, "xyz", 0⟩⟩ : ImageJoinResponse) :: [⟨⟨0, "", 0⟩⟩])
      = some (.failure ("Unknown status " ++ toString 5 ++ "!"), 1) ∧
    join [⟨⟨Status_FAILURE, "the build exploded", 0⟩⟩] ≠ join [⟨⟨5, "", 3⟩⟩] :=
  ⟨⟨by decide, by decide, by decide, by decide⟩,
    claim_C7_amended.1 5 "xyz" 0 [⟨⟨0, "", 0⟩⟩] (by decide) (by decide) (by decide),
    claim_C7_amended.2 5 "the build exploded" 0 3 (by decide) (by decide) (by decide) (by decide)⟩

theorem take_length_append {α : Type} (l l' : List α) : (l ++ l').take l.length = l := by
  simpa using List.take_left l l'

theorem getElem?_append_length {α : Type} (l l' : List α) (i : Nat) :
    (l ++ l')[l.length + i]? = l'[i]? := by
  rw [List.getElem?_append_right (Nat.le_add_right _ _)]
  simp

/-- C9: `add_python_packages` and `run_commands` never mutate the receiver
image or any existing `Layer` instance: the layer store is only extended
(every previously allocated instance, including the receiver's layer with
its cached id, is unchanged at its address, and the mount store is
untouched), and each call returns a brand-new image whose freshly
allocated, unrealized layer references the receiver's layer as its
`base`. -/
theorem claim_C9 (h : Heap) (self : ImageObj) (python_packages commands : List String)
    (sys_version : String) :
    ((add_python_packages h self python_packages sys_version).1.layers.take h.layers.length
        = h.layers ∧
      (add_python_packages h self python_packages sys_version).1.mounts = h.mounts ∧
      (add_python_packages h self python_packages sys_version).2.layer = h.layers.length + 1 ∧
      (add_python_packages h self python_packages sys_version).1.layers[h.layers.length + 1]?
        = some ⟨none, none,
            [("base", self.layer), ("builder", h.layers.length)],
            ["FROM builder as builder-vehicle",
             "RUN pip wheel " ++ String.intercalate " " python_packages ++ " -w /tmp/wheels",
             "FROM base",
             "COPY --from=builder-vehicle /tmp/wheels /tmp/wheels",
             "RUN pip install /tmp/wheels/*",
             "RUN rm -rf /tmp/wheels"], []⟩ ∧
      (add_python_packages h self python_packages sys_version).2.image_id = none) ∧
    ((run_commands h self commands sys_version).1.layers.take h.layers.length = h.layers ∧
      (run_commands h self commands sys_version).1.mounts = h.mounts ∧
      (run_commands h self commands sys_version).2.layer = h.layers.length ∧
      (run_commands h self commands sys_version).1.layers[h.layers.length]?
        = some ⟨none, none, [("base", self.layer)],
            "FROM base" :: commands.map (fun command => "RUN " ++ command), []⟩ ∧
      (run_commands h self commands sys_version).2.image_id = none) := by
  refine ⟨⟨?_, rfl, ?_, ?_, rfl⟩, ⟨?_, rfl, rfl, ?_, rfl⟩⟩
  · simpa [add_python_packages, DebianSlim_init, List.take_append] using
      take_length_append h.layers _
  · simp [add_python_packages, DebianSlim_init]
  · have := getElem?_append_length h.layers
      [(⟨none, some ("python-" ++ self.python_version ++ "-slim-buster-builder"), [], [], []⟩ :
          LayerObj),
        ⟨none, none,
          [("base", self.layer), ("builder", h.layers.length)],
          ["FROM builder as builder-vehicle",
           "RUN pip wheel " ++ String.intercalate " " python_packages ++ " -w /tmp/wheels",
           "FROM base",
           "COPY --from=builder-vehicle /tmp/wheels /tmp/wheels",
           "RUN pip install /tmp/wheels/*",
           "RUN rm -rf /tmp/wheels"], []⟩] 1
    simpa [add_python_packages, DebianSlim_init, List.append_assoc] using this
  · simpa [run_commands, DebianSlim_init] using take_length_append h.layers _
  · have := getElem?_append_length h.layers
      [(⟨none, none, [("base", self.layer)],
          "FROM base" :: commands.map (fun command => "RUN " ++ command), []⟩ : LayerObj)] 0
    simpa [run_commands, DebianSlim_init] using this

/-- C8 counterexample: the module-level default mount is shared — a
`DebianSlim()` image and the distinct image returned by its
`run_commands` both carry the very same `Mount` instance (heap address
`0`, the module-level singleton) in their mounts list, so a single Mount
instance belongs to the synchronization sets of two distinct Images. -/
theorem claim_C8_counterexample :
    (DebianSlim_init initHeap none none "3.9.7").2
      ≠ (run_commands (DebianSlim_init initHeap none none "3.9.7").1
          (DebianSlim_init initHeap none none "3.9.7").2 ["apt-get update"] "3.9.7").2 ∧
    defaultMountAddr ∈ (DebianSlim_init initHeap none none "3.9.7").2.mounts ∧
    defaultMountAddr ∈ (run_commands (DebianSlim_init initHeap none none "3.9.7").1
        (DebianSlim_init initHeap none none "3.9.7").2 ["apt-get update"] "3.9.7").2.mounts := by
  refine ⟨?_, by decide, by decide⟩
  intro h
  exact absurd (congrArg ImageObj.layer h) (by decide)

/-- C8 (amended): `Mount` ownership is not exclusive: every image built
through the `DebianSlim` constructors — `__init__`, `add_python_packages`
and `run_commands` — has as its mounts list exactly the one module-level
default mount instance, so that single Mount instance is shared by all
such images rather than belonging to exactly one. -/
theorem claim_C8_amended (h : Heap) (layer : Option Nat) (python_version : Option String)
    (sys_version : String) (self : ImageObj) (python_packages commands : List String) :
    (DebianSlim_init h layer python_version sys_version).2.mounts = [defaultMountAddr] ∧
    (add_python_packages h self python_packages sys_version).2.mounts = [defaultMountAddr] ∧
    (run_commands h self commands sys_version).2.mounts = [defaultMountAddr] := by
  refine ⟨?_, rfl, rfl⟩
  cases layer <;> rfl

theorem cnt_append (b : Nat) (t1 t2 : List LayerEvent) :
    cnt b (t1 ++ t2) = cnt b t1 + cnt b t2 := by
  simp [cnt, List.filter_append]

theorem cnt_pos_exists (b : Nat) (t : List LayerEvent) (h : cnt b t ≠ 0) :
    ∃ e ∈ t, e.addr = b := by
  rcases List.exists_mem_of_length_pos (Nat.pos_of_ne_zero h) with ⟨e, he⟩
  exact ⟨e, (List.mem_filter.mp he).1, by simpa using (List.mem_filter.mp he).2⟩

theorem listModify_getElem? {α : Type} (f : α → α) :
    ∀ (l : List α) (i j : Nat),
    (listModify f i l)[j]? = if j = i then (l[j]?).map f else l[j]? := by
  intro l
  induction l with
  | nil => intro i j; simp [listModify]
  | cons x t ih =>
    intro i j
    cases i with
    | zero =>
      cases j with
      | zero => simp [listModify]
      | succ j => simp [listModify]
    | succ i =>
      cases j with
      | zero => simp [listModify]
      | succ j =>
        simp only [listModify, List.getElem?_cons_succ]
        rw [ih i j]
        by_cases hji : j = i <;> simp [hji]

theorem setLayerId_getElem? (h : Heap) (a lid : Nat) (b : Nat) :
    (setLayerId h a lid).layers[b]?
      = if b = a then (h.layers[b]?).map (fun o => { o with layer_id := some lid })
        else h.layers[b]? := by
  simp [setLayerId, listModify_getElem?]

theorem idAt_setLayerId_ne (h : Heap) (a lid b : Nat) (hb : b ≠ a) :
    idAt (setLayerId h a lid) b = idAt h b := by
  simp [idAt, setLayerId_getElem?, hb]

theorem idAt_setLayerId_self (h : Heap) (a lid : Nat) (o : LayerObj)
    (ho : h.layers[a]? = some o) :
    idAt (setLayerId h a lid) a = some lid := by
  simp [idAt, setLayerId_getElem?, ho]

theorem layersStrip_setLayerId (h : Heap) (a lid : Nat) :
    layersStrip (setLayerId h a lid) = layersStrip h := by
  simp only [layersStrip, setLayerId]
  induction h.layers generalizing a with
  | nil => cases a <;> simp [listModify]
  | cons x t ih =>
    cases a with
    | zero => simp [listModify, stripId]
    | succ a => simp [listModify, ih a]

theorem layersStrip_getElem? (h h' : Heap) (hs : layersStrip h' = layersStrip h) (b : Nat) :
    (h'.layers[b]?).map stripId = (h.layers[b]?).map stripId := by
  have := congrArg (fun l => l[b]?) hs
  simpa [layersStrip] using this

theorem layersStrip_isSome (h h' : Heap) (hs : layersStrip h' = layersStrip h) (b : Nat)
    (o : LayerObj) (hb : h.layers[b]? = some o) :
    ∃ o', h'.layers[b]? = some o' := by
  have := layersStrip_getElem? h h' hs b
  rw [hb] at this
  cases ho' : h'.layers[b]? with
  | none => rw [ho'] at this; simp at this
  | some o' => exact ⟨o', rfl⟩

theorem PRun_refl (h : Heap) : PRun h h [] := by
  refine ⟨rfl, rfl, fun b l hb => ⟨hb, rfl⟩, fun b _ => rfl⟩

theorem PRun_comp (h h1 h2 : Heap) (t1 t2 : List LayerEvent)
    (p1 : PRun h h1 t1) (p2 : PRun h1 h2 t2) : PRun h h2 (t1 ++ t2) := by
  obtain ⟨s1, m1, mono1, z1⟩ := p1
  obtain ⟨s2, m2, mono2, z2⟩ := p2
  refine ⟨s2.trans s1, m2.trans m1, ?_, ?_⟩
  · intro b l hb
    obtain ⟨hb1, hc1⟩ := mono1 b l hb
    obtain ⟨hb2, hc2⟩ := mono2 b l hb1
    exact ⟨hb2, by simp [cnt_append, hc1, hc2]⟩
  · intro b hc
    rw [cnt_append] at hc
    have hc1 : cnt b t1 = 0 := by omega
    have hc2 : cnt b t2 = 0 := by omega
    rw [z2 b hc2, z1 b hc1]


theorem realize_bases_nil (step : Heap → Nat → Nat → LayerRunResult) (h : Heap) (n : Nat) :
    realize_bases step h n [] = ⟨.ok [], h, n, []⟩ := rfl

theorem realize_bases_cons_err (step : Heap → Nat → Nat → LayerRunResult) (h : Heap)
    (n : Nat) (docker_tag : String) (layerAddr : Nat) (rest : List (String × Nat)) (e : String)
    (hr : (step h n layerAddr).result = .error e) :
    realize_bases step h n ((docker_tag, layerAddr) :: rest)
      = ⟨.error e, (step h n layerAddr).heap, (step h n layerAddr).counter,
         (step h n layerAddr).trace⟩ := by
  simp [realize_bases, hr]

theorem realize_bases_cons_ok_err (step : Heap → Nat → Nat → LayerRunResult) (h : Heap)
    (n : Nat) (docker_tag : String) (layerAddr : Nat) (rest : List (String × Nat))
    (lid : Nat) (e : String)
    (hr : (step h n layerAddr).result = .ok lid)
    (hr2 : (realize_bases step (step h n layerAddr).heap (step h n layerAddr).counter
        rest).result = .error e) :
    realize_bases step h n ((docker_tag, layerAddr) :: rest)
      = ⟨.error e,
         (realize_bases step (step h n layerAddr).heap (step h n layerAddr).counter rest).heap,
         (realize_bases step (step h n layerAddr).heap (step h n layerAddr).counter rest).counter,
         (step h n layerAddr).trace ++
           (realize_bases step (step h n layerAddr).heap (step h n layerAddr).counter
             rest).trace⟩ := by
  simp [realize_bases, hr, hr2]

theorem realize_bases_cons_ok_ok (step : Heap → Nat → Nat → LayerRunResult) (h : Heap)
    (n : Nat) (docker_tag : String) (layerAddr : Nat) (rest : List (String × Nat))
    (lid : Nat) (bls : List BaseLayer)
    (hr : (step h n layerAddr).result = .ok lid)
    (hr2 : (realize_bases step (step h n layerAddr).heap (step h n layerAddr).counter
        rest).result = .ok bls) :
    realize_bases step h n ((docker_tag, layerAddr) :: rest)
      = ⟨.ok (⟨docker_tag, lid⟩ :: bls),
         (realize_bases step (step h n layerAddr).heap (step h n layerAddr).counter rest).heap,
         (realize_bases step (step h n layerAddr).heap (step h n layerAddr).counter rest).counter,
         (step h n layerAddr).trace ++
           (realize_bases step (step h n layerAddr).heap (step h n layerAddr).counter
             rest).trace⟩ := by
  simp [realize_bases, hr, hr2]

theorem layer_start_zero_eq (c : LayerClient) (h : Heap) (n a : Nat) :
    layer_start c 0 h n a = ⟨.error "maximum recursion depth exceeded", h, n, []⟩ := rfl

theorem layer_start_invalid (c : LayerClient) (fuel : Nat) (h : Heap) (n a : Nat)
    (hobj : h.layers[a]? = none) :
    layer_start c (fuel + 1) h n a = ⟨.error "invalid layer reference", h, n, []⟩ := by
  simp [layer_start, hobj]

theorem layer_start_cached (c : LayerClient) (fuel : Nat) (h : Heap) (n a : Nat)
    (obj : LayerObj) (lid : Nat) (hobj : h.layers[a]? = some obj)
    (hid : obj.layer_id = some lid) :
    layer_start c (fuel + 1) h n a = ⟨.ok lid, h, n, []⟩ := by
  simp [layer_start, hobj, hid]

theorem layer_start_bases_err (c : LayerClient) (fuel : Nat) (h : Heap) (n a : Nat)
    (obj : LayerObj) (e : String) (hobj : h.layers[a]? = some obj)
    (hid : obj.layer_id = none)
    (hres : (realize_bases (layer_start c fuel) h n obj.base_layers).result = .error e) :
    layer_start c (fuel + 1) h n a
      = ⟨.error e, (realize_bases (layer_start c fuel) h n obj.base_layers).heap,
         (realize_bases (layer_start c fuel) h n obj.base_layers).counter,
         (realize_bases (layer_start c fuel) h n obj.base_layers).trace⟩ := by
  simp [layer_start, hobj, hid, hres]

theorem layer_start_create_err (c : LayerClient) (fuel : Nat) (h : Heap) (n a : Nat)
    (obj : LayerObj) (bls : List BaseLayer) (e : String)
    (hobj : h.layers[a]? = some obj) (hid : obj.layer_id = none)
    (hres : (realize_bases (layer_start c fuel) h n obj.base_layers).result = .ok bls)
    (hc : c (realize_bases (layer_start c fuel) h n obj.base_layers).counter (reqOf obj bls)
        = .error e) :
    layer_start c (fuel + 1) h n a
      = ⟨.error e, (realize_bases (layer_start c fuel) h n obj.base_layers).heap,
         (realize_bases (layer_start c fuel) h n obj.base_layers).counter + 1,
         (realize_bases (layer_start c fuel) h n obj.base_layers).trace ++
           [⟨a, (realize_bases (layer_start c fuel) h n obj.base_layers).counter,
             reqOf obj bls, none⟩]⟩ := by
  simp only [layer_start, hobj, hid, hres]
  rw [show (⟨obj.tag, bls, obj.dockerfile_commands, obj.context_files⟩ : LayerDef)
      = reqOf obj bls from rfl, hc]

theorem layer_start_create_ok (c : LayerClient) (fuel : Nat) (h : Heap) (n a : Nat)
    (obj : LayerObj) (bls : List BaseLayer) (lid : Nat)
    (hobj : h.layers[a]? = some obj) (hid : obj.layer_id = none)
    (hres : (realize_bases (layer_start c fuel) h n obj.base_layers).result = .ok bls)
    (hc : c (realize_bases (layer_start c fuel) h n obj.base_layers).counter (reqOf obj bls)
        = .ok lid) :
    layer_start c (fuel + 1) h n a
      = ⟨.ok lid,
         setLayerId (realize_bases (layer_start c fuel) h n obj.base_layers).heap a lid,
         (realize_bases (layer_start c fuel) h n obj.base_layers).counter + 1,
         (realize_bases (layer_start c fuel) h n obj.base_layers).trace ++
           [⟨a, (realize_bases (layer_start c fuel) h n obj.base_layers).counter,
             reqOf obj bls, some lid⟩]⟩ := by
  simp only [layer_start, hobj, hid, hres]
  rw [show (⟨obj.tag, bls, obj.dockerfile_commands, obj.context_files⟩ : LayerDef)
      = reqOf obj bls from rfl, hc]

theorem realize_bases_PRun (step : Heap → Nat → Nat → LayerRunResult)
    (hstep : ∀ h n a, PRun h (step h n a).heap (step h n a).trace) :
    ∀ (bs : List (String × Nat)) (h : Heap) (n : Nat),
    PRun h (realize_bases step h n bs).heap (realize_bases step h n bs).trace := by
  intro bs
  induction bs with
  | nil => intro h n; rw [realize_bases_nil]; exact PRun_refl h
  | cons p rest ih =>
    intro h n
    obtain ⟨docker_tag, layerAddr⟩ := p
    cases hr : (step h n layerAddr).result with
    | error e =>
      rw [realize_bases_cons_err step h n docker_tag layerAddr rest e hr]
      exact hstep h n layerAddr
    | ok lid =>
      cases hr2 : (realize_bases step (step h n layerAddr).heap (step h n layerAddr).counter
          rest).result with
      | error e =>
        rw [realize_bases_cons_ok_err step h n docker_tag layerAddr rest lid e hr hr2]
        exact PRun_comp _ _ _ _ _ (hstep h n layerAddr) (ih _ _)
      | ok bls =>
        rw [realize_bases_cons_ok_ok step h n docker_tag layerAddr rest lid bls hr hr2]
        exact PRun_comp _ _ _ _ _ (hstep h n layerAddr) (ih _ _)

theorem layer_start_PRun (c : LayerClient) :
    ∀ (fuel : Nat) (h : Heap) (n a : Nat),
    PRun h (layer_start c fuel h n a).heap (layer_start c fuel h n a).trace := by
  intro fuel
  induction fuel with
  | zero => intro h n a; rw [layer_start_zero_eq]; exact PRun_refl h
  | succ fuel ih =>
    intro h n a
    cases hobj : h.layers[a]? with
    | none => rw [layer_start_invalid c fuel h n a hobj]; exact PRun_refl h
    | some obj =>
      cases hid : obj.layer_id with
      | some lid => rw [layer_start_cached c fuel h n a obj lid hobj hid]; exact PRun_refl h
      | none =>
        have hrb := realize_bases_PRun (layer_start c fuel) ih obj.base_layers h n
        have hida : idAt h a = none := by simp [idAt, hobj, hid]
        cases hres : (realize_bases (layer_start c fuel) h n obj.base_layers).result with
        | error e =>
          rw [layer_start_bases_err c fuel h n a obj e hobj hid hres]
          exact hrb
        | ok bls =>
          obtain ⟨hs, hm, hmono, hz⟩ := hrb
          cases hc : c (realize_bases (layer_start c fuel) h n obj.base_layers).counter
              (reqOf obj bls) with
          | error e =>
            rw [layer_start_create_err c fuel h n a obj bls e hobj hid hres hc]
            refine ⟨hs, hm, ?_, ?_⟩
            · intro b l hb
              obtain ⟨hb1, hc1⟩ := hmono b l hb
              have hba : b ≠ a := fun hba => by rw [hba, hida] at hb; exact Option.noConfusion hb
              refine ⟨hb1, ?_⟩
              rw [cnt_append, hc1]
              simp [cnt, hba.symm]
            · intro b hcv
              rw [cnt_append] at hcv
              exact hz b (by omega)
          | ok lid =>
            rw [layer_start_create_ok c fuel h n a obj bls lid hobj hid hres hc]
            refine ⟨(layersStrip_setLayerId _ a lid).trans hs, hm, ?_, ?_⟩
            · intro b l hb
              obtain ⟨hb1, hc1⟩ := hmono b l hb
              have hba : b ≠ a := fun hba => by rw [hba, hida] at hb; exact Option.noConfusion hb
              refine ⟨by rw [idAt_setLayerId_ne _ _ _ _ hba]; exact hb1, ?_⟩
              rw [cnt_append, hc1]
              simp [cnt, hba.symm]
            · intro b hcv
              rw [cnt_append] at hcv
              have hc1 : cnt b (realize_bases (layer_start c fuel) h n obj.base_layers).trace
                  = 0 := by omega
              have hba : b ≠ a := by
                intro hba
                subst hba
                simp [cnt] at hcv
              rw [idAt_setLayerId_ne _ _ _ _ hba, hz b hc1]

theorem rankedFrom_congr (rk : Nat → Nat) :
    ∀ (l l' : List LayerObj) (i : Nat), l.map stripId = l'.map stripId →
    rankedFrom rk i l = rankedFrom rk i l' := by
  intro l
  induction l with
  | nil =>
    intro l' i hmap
    cases l' with
    | nil => rfl
    | cons y t' => simp at hmap
  | cons x t ih =>
    intro l' i hmap
    cases l' with
    | nil => simp at hmap
    | cons y t' =>
      simp only [List.map_cons, List.cons.injEq] at hmap
      have hbase : x.base_layers = y.base_layers := by
        have := congrArg LayerObj.base_layers hmap.1
        simpa [stripId] using this
      simp only [rankedFrom, hbase, ih t' (i + 1) hmap.2]

theorem ranked_get (rk : Nat → Nat) :
    ∀ (l : List LayerObj) (s i : Nat) (o : LayerObj),
    rankedFrom rk s l = true → l[i]? = some o →
    ∀ p ∈ o.base_layers, rk p.2 < rk (s + i) := by
  intro l
  induction l with
  | nil => intro s i o _ hio; simp at hio
  | cons x t ih =>
    intro s i o hr hio
    simp only [rankedFrom, Bool.and_eq_true, List.all_eq_true] at hr
    cases i with
    | zero =>
      simp only [List.getElem?_cons_zero, Option.some.injEq] at hio
      subst hio
      intro p hp
      simpa using hr.1 p hp
    | succ i =>
      simp only [List.getElem?_cons_succ] at hio
      intro p hp
      have := ih (s + 1) i o hr.2 hio p hp
      have harith : s + 1 + i = s + (i + 1) := by omega
      rwa [harith] at this

theorem rankedChk_get (h : Heap) (rk : Nat → Nat) (a : Nat) (o : LayerObj)
    (hr : rankedChk h rk = true) (ho : h.layers[a]? = some o) :
    ∀ p ∈ o.base_layers, rk p.2 < rk a := by
  have := ranked_get rk h.layers 0 a o hr ho
  simpa using this

theorem rankedChk_strip (h h' : Heap) (rk : Nat → Nat)
    (hs : layersStrip h' = layersStrip h) : rankedChk h' rk = rankedChk h rk :=
  rankedFrom_congr rk h'.layers h.layers 0 hs

theorem realize_bases_rank (step : Heap → Nat → Nat → LayerRunResult) (rk : Nat → Nat)
    (hstepStrip : ∀ h n a, layersStrip (step h n a).heap = layersStrip h)
    (hstepRank : ∀ h n a, rankedChk h rk = true →
      ∀ e ∈ (step h n a).trace, rk e.addr ≤ rk a) :
    ∀ (bs : List (String × Nat)) (h : Heap) (n : Nat), rankedChk h rk = true →
    ∀ e ∈ (realize_bases step h n bs).trace, ∃ p ∈ bs, rk e.addr ≤ rk p.2 := by
  intro bs
  induction bs with
  | nil => intro h n _ e he; rw [realize_bases_nil] at he; simp at he
  | cons p rest ih =>
    intro h n hrk e he
    obtain ⟨docker_tag, layerAddr⟩ := p
    have hrk' : rankedChk (step h n layerAddr).heap rk = true := by
      rw [rankedChk_strip h (step h n layerAddr).heap rk (hstepStrip h n layerAddr)]
      exact hrk
    cases hr : (step h n layerAddr).result with
    | error e' =>
      rw [realize_bases_cons_err step h n docker_tag layerAddr rest e' hr] at he
      exact ⟨(docker_tag, layerAddr), List.mem_cons_self _ _, hstepRank h n layerAddr hrk e he⟩
    | ok lid =>
      have hsplit : e ∈ (step h n layerAddr).trace ∨
          e ∈ (realize_bases step (step h n layerAddr).heap (step h n layerAddr).counter
            rest).trace := by
        cases hr2 : (realize_bases step (step h n layerAddr).heap
            (step h n layerAddr).counter rest).result with
        | error e'' =>
          rw [realize_bases_cons_ok_err step h n docker_tag layerAddr rest lid e'' hr hr2] at he
          simpa using List.mem_append.mp he
        | ok bls =>
          rw [realize_bases_cons_ok_ok step h n docker_tag layerAddr rest lid bls hr hr2] at he
          simpa using List.mem_append.mp he
      cases hsplit with
      | inl h1 =>
        exact ⟨(docker_tag, layerAddr), List.mem_cons_self _ _, hstepRank h n layerAddr hrk e h1⟩
      | inr h2 =>
        obtain ⟨q, hq, hle⟩ := ih (step h n layerAddr).heap (step h n layerAddr).counter hrk' e h2
        exact ⟨q, List.mem_cons_of_mem _ hq, hle⟩

theorem layer_start_rank (c : LayerClient) (rk : Nat → Nat) :
    ∀ (fuel : Nat) (h : Heap) (n a : Nat), rankedChk h rk = true →
    ∀ e ∈ (layer_start c fuel h n a).trace, rk e.addr ≤ rk a := by
  intro fuel
  induction fuel with
  | zero => intro h n a _ e he; rw [layer_start_zero_eq] at he; simp at he
  | succ fuel ih =>
    intro h n a hrk e he
    cases hobj : h.layers[a]? with
    | none => rw [layer_start_invalid c fuel h n a hobj] at he; simp at he
    | some obj =>
      cases hid : obj.layer_id with
      | some lid => rw [layer_start_cached c fuel h n a obj lid hobj hid] at he; simp at he
      | none =>
        have hbases : ∀ e' ∈ (realize_bases (layer_start c fuel) h n obj.base_layers).trace,
            rk e'.addr ≤ rk a := by
          intro e' he'
          obtain ⟨p, hp, hle⟩ := realize_bases_rank (layer_start c fuel) rk
            (fun h' n' a' => (layer_start_PRun c fuel h' n' a').1)
            (fun h' n' a' hrk' => ih h' n' a' hrk')
            obj.base_layers h n hrk e' he'
          exact le_of_lt (lt_of_le_of_lt hle (rankedChk_get h rk a obj hrk hobj p hp))
        cases hres : (realize_bases (layer_start c fuel) h n obj.base_layers).result with
        | error e' =>
          rw [layer_start_bases_err c fuel h n a obj e' hobj hid hres] at he
          exact hbases e he
        | ok bls =>
          cases hc : c (realize_bases (layer_start c fuel) h n obj.base_layers).counter
              (reqOf obj bls) with
          | error e' =>
            rw [layer_start_create_err c fuel h n a obj bls e' hobj hid hres hc] at he
            rcases List.mem_append.mp he with h1 | h1
            · exact hbases e h1
            · simp only [List.mem_singleton] at h1
              subst h1
              exact le_refl _
          | ok lid =>
            rw [layer_start_create_ok c fuel h n a obj bls lid hobj hid hres hc] at he
            rcases List.mem_append.mp he with h1 | h1
            · exact hbases e h1
            · simp only [List.mem_singleton] at h1
              subst h1
              exact le_refl _

theorem GO_refl (h : Heap) : GO h h [] :=
  ⟨fun _ _ => rfl, fun b => ⟨Nat.zero_le 1, fun h1 => absurd h1.symm (by simp [cnt])⟩⟩

theorem GO_comp (h h1 h2 : Heap) (t1 t2 : List LayerEvent)
    (g1 : GO h h1 t1) (g2 : GO h1 h2 t2) : GO h h2 (t1 ++ t2) := by
  obtain ⟨z1, p1⟩ := g1
  obtain ⟨z2, p2⟩ := g2
  refine ⟨?_, ?_⟩
  · intro b hc
    rw [cnt_append] at hc
    rw [z2 b (by omega), z1 b (by omega)]
  · intro b
    obtain ⟨le1, one1⟩ := p1 b
    obtain ⟨le2, one2⟩ := p2 b
    rw [cnt_append]
    by_cases h1c : cnt b t1 = 1
    · have h2c : cnt b t2 = 0 := by
        by_contra hne
        have h2c1 : cnt b t2 = 1 := by omega
        obtain ⟨hnone, _⟩ := one2 h2c1
        obtain ⟨_, hsome⟩ := one1 h1c
        rw [hnone] at hsome
        simp at hsome
      constructor
      · omega
      · intro _
        obtain ⟨hn, hs⟩ := one1 h1c
        exact ⟨hn, by rw [z2 b h2c]; exact hs⟩
    · have h1c0 : cnt b t1 = 0 := by omega
      constructor
      · omega
      · intro htot
        have h2c1 : cnt b t2 = 1 := by omega
        obtain ⟨hn, hs⟩ := one2 h2c1
        rw [z1 b h1c0] at hn
        exact ⟨hn, hs⟩

theorem realize_bases_GO (step : Heap → Nat → Nat → LayerRunResult) (rk : Nat → Nat)
    (hstepStrip : ∀ h n a, layersStrip (step h n a).heap = layersStrip h)
    (hstepGO : ∀ h n a l, rankedChk h rk = true → (step h n a).result = .ok l →
      GO h (step h n a).heap (step h n a).trace) :
    ∀ (bs : List (String × Nat)) (h : Heap) (n : Nat) (bls : List BaseLayer),
    rankedChk h rk = true → (realize_bases step h n bs).result = .ok bls →
    GO h (realize_bases step h n bs).heap (realize_bases step h n bs).trace := by
  intro bs
  induction bs with
  | nil => intro h n bls _ _; rw [realize_bases_nil]; exact GO_refl h
  | cons p rest ih =>
    intro h n bls hrk hok
    obtain ⟨docker_tag, layerAddr⟩ := p
    cases hr : (step h n layerAddr).result with
    | error e =>
      rw [realize_bases_cons_err step h n docker_tag layerAddr rest e hr] at hok
      exact absurd hok (by simp)
    | ok lid =>
      have hrk' : rankedChk (step h n layerAddr).heap rk = true := by
        rw [rankedChk_strip h (step h n layerAddr).heap rk (hstepStrip h n layerAddr)]
        exact hrk
      cases hr2 : (realize_bases step (step h n layerAddr).heap (step h n layerAddr).counter
          rest).result with
      | error e =>
        rw [realize_bases_cons_ok_err step h n docker_tag layerAddr rest lid e hr hr2] at hok
        exact absurd hok (by simp)
      | ok bls' =>
        rw [realize_bases_cons_ok_ok step h n docker_tag layerAddr rest lid bls' hr hr2]
        exact GO_comp _ _ _ _ _ (hstepGO h n layerAddr lid hrk hr)
          (ih _ _ bls' hrk' hr2)

theorem layer_start_GO (c : LayerClient) (rk : Nat → Nat) :
    ∀ (fuel : Nat) (h : Heap) (n a lid : Nat), rankedChk h rk = true →
    (layer_start c fuel h n a).result = .ok lid →
    GO h (layer_start c fuel h n a).heap (layer_start c fuel h n a).trace := by
  intro fuel
  induction fuel with
  | zero =>
    intro h n a lid _ hok
    rw [layer_start_zero_eq] at hok
    exact absurd hok (by simp)
  | succ fuel ih =>
    intro h n a lid hrk hok
    cases hobj : h.layers[a]? with
    | none =>
      rw [layer_start_invalid c fuel h n a hobj] at hok
      exact absurd hok (by simp)
    | some obj =>
      cases hid : obj.layer_id with
      | some lid' =>
        rw [layer_start_cached c fuel h n a obj lid' hobj hid]
        exact GO_refl h
      | none =>
        have hida : idAt h a = none := by simp [idAt, hobj, hid]
        cases hres : (realize_bases (layer_start c fuel) h n obj.base_layers).result with
        | error e =>
          rw [layer_start_bases_err c fuel h n a obj e hobj hid hres] at hok
          exact absurd hok (by simp)
        | ok bls =>
          have hGOrb : GO h (realize_bases (layer_start c fuel) h n obj.base_layers).heap
              (realize_bases (layer_start c fuel) h n obj.base_layers).trace :=
            realize_bases_GO (layer_start c fuel) rk
              (fun h' n' a' => (layer_start_PRun c fuel h' n' a').1)
              (fun h' n' a' l' hrk' hok' => ih h' n' a' l' hrk' hok')
              obj.base_layers h n bls hrk hres
          have hcrux : cnt a (realize_bases (layer_start c fuel) h n obj.base_layers).trace
              = 0 := by
            by_contra hne
            obtain ⟨e, he, hea⟩ := cnt_pos_exists a _ hne
            obtain ⟨p, hp, hle⟩ := realize_bases_rank (layer_start c fuel) rk
              (fun h' n' a' => (layer_start_PRun c fuel h' n' a').1)
              (fun h' n' a' hrk' => layer_start_rank c rk fuel h' n' a' hrk')
              obj.base_layers h n hrk e he
            rw [hea] at hle
            exact absurd (lt_of_le_of_lt hle (rankedChk_get h rk a obj hrk hobj p hp))
              (lt_irrefl _)
          cases hc : c (realize_bases (layer_start c fuel) h n obj.base_layers).counter
              (reqOf obj bls) with
          | error e =>
            rw [layer_start_create_err c fuel h n a obj bls e hobj hid hres hc] at hok
            exact absurd hok (by simp)
          | ok lid' =>
            rw [layer_start_create_ok c fuel h n a obj bls lid' hobj hid hres hc]
            obtain ⟨hz, hper⟩ := hGOrb
            obtain ⟨o', ho'⟩ := layersStrip_isSome h _
              (realize_bases_PRun (layer_start c fuel)
                (layer_start_PRun c fuel) obj.base_layers h n).1 a obj hobj
            refine ⟨?_, ?_⟩
            · intro b hc0
              rw [cnt_append] at hc0
              have hzb : cnt b (realize_bases (layer_start c fuel) h n
                  obj.base_layers).trace = 0 := by omega
              have hba : b ≠ a := by
                intro hba
                subst hba
                simp [cnt] at hc0
              rw [idAt_setLayerId_ne _ _ _ _ hba, hz b hzb]
            · intro b
              by_cases hba : b = a
              · subst hba
                rw [cnt_append, hcrux]
                constructor
                · simp [cnt]
                · intro _
                  exact ⟨hida, by rw [idAt_setLayerId_self _ b lid' o' ho']; rfl⟩
              · obtain ⟨hle, hone⟩ := hper b
                rw [cnt_append]
                have hcnt1 : cnt b [(⟨a, (realize_bases (layer_start c fuel) h n
                    obj.base_layers).counter, reqOf obj bls, some lid'⟩ : LayerEvent)]
                    = 0 := by simp [cnt, Ne.symm hba]
                rw [hcnt1]
                constructor
                · omega
                · intro h1
                  obtain ⟨hn, hs⟩ := hone (by omega)
                  exact ⟨hn, by rw [idAt_setLayerId_ne _ _ _ _ hba]; exact hs⟩

theorem layer_start_ok_id (c : LayerClient) (fuel : Nat) (h : Heap) (n a lid : Nat)
    (hok : (layer_start c fuel h n a).result = .ok lid) :
    idAt (layer_start c fuel h n a).heap a = some lid := by
  cases fuel with
  | zero => rw [layer_start_zero_eq] at hok; exact absurd hok (by simp)
  | succ fuel =>
    cases hobj : h.layers[a]? with
    | none =>
      rw [layer_start_invalid c fuel h n a hobj] at hok
      exact absurd hok (by simp)
    | some obj =>
      cases hid : obj.layer_id with
      | some lid' =>
        rw [layer_start_cached c fuel h n a obj lid' hobj hid] at hok ⊢
        simp only at hok
        obtain rfl : lid' = lid := by simpa using hok
        simp [idAt, hobj, hid]
      | none =>
        cases hres : (realize_bases (layer_start c fuel) h n obj.base_layers).result with
        | error e =>
          rw [layer_start_bases_err c fuel h n a obj e hobj hid hres] at hok
          exact absurd hok (by simp)
        | ok bls =>
          cases hc : c (realize_bases (layer_start c fuel) h n obj.base_layers).counter
              (reqOf obj bls) with
          | error e =>
            rw [layer_start_create_err c fuel h n a obj bls e hobj hid hres hc] at hok
            exact absurd hok (by simp)
          | ok lid' =>
            rw [layer_start_create_ok c fuel h n a obj bls lid' hobj hid hres hc] at hok ⊢
            simp only at hok
            obtain rfl : lid' = lid := by simpa using hok
            obtain ⟨o', ho'⟩ := layersStrip_isSome h _
              (realize_bases_PRun (layer_start c fuel)
                (layer_start_PRun c fuel) obj.base_layers h n).1 a obj hobj
            simpa using idAt_setLayerId_self _ a _ o' ho'

theorem realize_bases_sets (step : Heap → Nat → Nat → LayerRunResult)
    (hstep_ok_id : ∀ h n a l, (step h n a).result = .ok l →
      idAt (step h n a).heap a = some l)
    (hstep_PRun : ∀ h n a, PRun h (step h n a).heap (step h n a).trace) :
    ∀ (bs : List (String × Nat)) (h : Heap) (n : Nat) (bls : List BaseLayer),
    (realize_bases step h n bs).result = .ok bls →
    ∀ p ∈ bs, ((idAt (realize_bases step h n bs).heap p.2).isSome : Bool) = true := by
  intro bs
  induction bs with
  | nil => intro h n bls _ p hp; simp at hp
  | cons q rest ih =>
    intro h n bls hok p hp
    obtain ⟨docker_tag, layerAddr⟩ := q
    cases hr : (step h n layerAddr).result with
    | error e =>
      rw [realize_bases_cons_err step h n docker_tag layerAddr rest e hr] at hok
      exact absurd hok (by simp)
    | ok lid =>
      cases hr2 : (realize_bases step (step h n layerAddr).heap (step h n layerAddr).counter
          rest).result with
      | error e =>
        rw [realize_bases_cons_ok_err step h n docker_tag layerAddr rest lid e hr hr2] at hok
        exact absurd hok (by simp)
      | ok bls' =>
        rw [realize_bases_cons_ok_ok step h n docker_tag layerAddr rest lid bls' hr hr2]
        rcases List.mem_cons.mp hp with hphead | hptail
        · subst hphead
          have h1 : idAt (step h n layerAddr).heap layerAddr = some lid :=
            hstep_ok_id h n layerAddr lid hr
          have h2 := (realize_bases_PRun step hstep_PRun rest (step h n layerAddr).heap
            (step h n layerAddr).counter).2.2.1 layerAddr lid h1
          simp [h2.1]
        · exact ih _ _ bls' hr2 p hptail

/-- C5: in a layer DAG (certified acyclic by a rank function), when the
same `Layer` instance `a` is referenced as a base by a parent being
realized, realizing that parent and then realizing any second parent (for
example one that also references `a`) issues exactly one `LayerCreate` RPC
for the shared instance across both runs — the second reference returns
the cached `layer_id`.  By contrast, two separately constructed instances
with identical content (the concrete `twinHeap`) are each realized by
their own `LayerCreate` call and receive independent layer ids. -/
theorem claim_C5 :
    (∀ (c c' : LayerClient) (rk : Nat → Nat) (fuel fuel' n n' p1 p2 a l1 l2 : Nat)
       (h : Heap) (o1 : LayerObj) (dt : String),
      rankedChk h rk = true →
      h.layers[p1]? = some o1 → o1.layer_id = none → (dt, a) ∈ o1.base_layers →
      idAt h a = none →
      (layer_start c fuel h n p1).result = .ok l1 →
      (layer_start c' fuel' (layer_start c fuel h n p1).heap n' p2).result = .ok l2 →
      cnt a ((layer_start c fuel h n p1).trace
        ++ (layer_start c' fuel' (layer_start c fuel h n p1).heap n' p2).trace) = 1) ∧
    (cnt 0 ((layer_start freshLayerClient 5 twinHeap 0 2).trace
        ++ (layer_start freshLayerClient 5 (layer_start freshLayerClient 5 twinHeap 0 2).heap
            (layer_start freshLayerClient 5 twinHeap 0 2).counter 3).trace) = 1 ∧
      cnt 1 ((layer_start freshLayerClient 5 twinHeap 0 2).trace
        ++ (layer_start freshLayerClient 5 (layer_start freshLayerClient 5 twinHeap 0 2).heap
            (layer_start freshLayerClient 5 twinHeap 0 2).counter 3).trace) = 1 ∧
      idAt (layer_start freshLayerClient 5 (layer_start freshLayerClient 5 twinHeap 0 2).heap
          (layer_start freshLayerClient 5 twinHeap 0 2).counter 3).heap 0 = some 1000 ∧
      idAt (layer_start freshLayerClient 5 (layer_start freshLayerClient 5 twinHeap 0 2).heap
          (layer_start freshLayerClient 5 twinHeap 0 2).counter 3).heap 1 = some 1002) := by
  constructor
  · intro c c' rk fuel fuel' n n' p1 p2 a l1 l2 h o1 dt hrk ho1 hid hbase hida hok1 hok2
    cases fuel with
    | zero => rw [layer_start_zero_eq] at hok1; exact absurd hok1 (by simp)
    | succ fuel =>
      have hanep : a ≠ p1 := by
        intro hap
        have := rankedChk_get h rk p1 o1 hrk ho1 (dt, a) hbase
        rw [hap] at this
        exact absurd this (lt_irrefl _)
      cases hres : (realize_bases (layer_start c fuel) h n o1.base_layers).result with
      | error e =>
        rw [layer_start_bases_err c fuel h n p1 o1 e ho1 hid hres] at hok1
        exact absurd hok1 (by simp)
      | ok bls =>
        cases hc : c (realize_bases (layer_start c fuel) h n o1.base_layers).counter
            (reqOf o1 bls) with
        | error e =>
          rw [layer_start_create_err c fuel h n p1 o1 bls e ho1 hid hres hc] at hok1
          exact absurd hok1 (by simp)
        | ok lid =>
          have run1eq := layer_start_create_ok c fuel h n p1 o1 bls lid ho1 hid hres hc
          have htr1 : (layer_start c (fuel + 1) h n p1).trace
              = (realize_bases (layer_start c fuel) h n o1.base_layers).trace ++
                [⟨p1, (realize_bases (layer_start c fuel) h n o1.base_layers).counter,
                  reqOf o1 bls, some lid⟩] := by rw [run1eq]
          have hheap1 : (layer_start c (fuel + 1) h n p1).heap
              = setLayerId (realize_bases (layer_start c fuel) h n o1.base_layers).heap
                  p1 lid := by rw [run1eq]
          have hsets := realize_bases_sets (layer_start c fuel)
            (fun h' n' a' l' => layer_start_ok_id c fuel h' n' a' l')
            (layer_start_PRun c fuel) o1.base_layers h n bls hres (dt, a) hbase
          have hGOrb := realize_bases_GO (layer_start c fuel) rk
            (fun h' n' a' => (layer_start_PRun c fuel h' n' a').1)
            (fun h' n' a' l' hrk' hok' => layer_start_GO c rk fuel h' n' a' l' hrk' hok')
            o1.base_layers h n bls hrk hres
          have hcrb : cnt a (realize_bases (layer_start c fuel) h n o1.base_layers).trace
              = 1 := by
            obtain ⟨hz, hper⟩ := hGOrb
            obtain ⟨hle, _⟩ := hper a
            by_contra hne
            have h0 : cnt a (realize_bases (layer_start c fuel) h n o1.base_layers).trace
                = 0 := by omega
            rw [hz a h0, hida] at hsets
            simp at hsets
          obtain ⟨la, hla⟩ : ∃ la, idAt (realize_bases (layer_start c fuel) h n
              o1.base_layers).heap a = some la := by
            cases hcase : idAt (realize_bases (layer_start c fuel) h n o1.base_layers).heap a
            · rw [hcase] at hsets; simp at hsets
            · exact ⟨_, rfl⟩
          have hla' : idAt (layer_start c (fuel + 1) h n p1).heap a = some la := by
            rw [hheap1, idAt_setLayerId_ne _ _ _ _ hanep]
            exact hla
          have hcr2 : cnt a (layer_start c' fuel'
              (layer_start c (fuel + 1) h n p1).heap n' p2).trace = 0 :=
            ((layer_start_PRun c' fuel' (layer_start c (fuel + 1) h n p1).heap n' p2).2.2.1
              a la hla').2
          rw [cnt_append, hcr2, htr1, cnt_append, hcrb]
          simp [cnt, Ne.symm hanep]
  · refine ⟨by decide, by decide, by decide, by decide⟩

theorem claim_C5_witness :
    (rankedChk sharedHeap (fun x => x) = true ∧
      sharedHeap.layers[1]? = some ⟨none, none, [("base", 0)], ["FROM base"], []⟩ ∧
      (⟨none, none, [("base", 0)], ["FROM base"], []⟩ : LayerObj).layer_id = none ∧
      ("base", 0) ∈ (⟨none, none, [("base", 0)], ["FROM base"], []⟩ : LayerObj).base_layers ∧
      idAt sharedHeap 0 = none ∧
      (layer_start freshLayerClient 5 sharedHeap 0 1).result = .ok 1001 ∧
      (layer_start freshLayerClient 5
        (layer_start freshLayerClient 5 sharedHeap 0 1).heap 2 2).result = .ok 1002) ∧
    cnt 0 ((layer_start freshLayerClient 5 sharedHeap 0 1).trace
      ++ (layer_start freshLayerClient 5
          (layer_start freshLayerClient 5 sharedHeap 0 1).heap 2 2).trace) = 1 :=
  ⟨⟨by decide, by decide, by decide, by decide, by decide, rfl, rfl⟩,
    claim_C5.1 freshLayerClient freshLayerClient (fun x => x) 5 5 0 2 1 2 0 1001 1002
      sharedHeap ⟨none, none, [("base", 0)], ["FROM base"], []⟩ "base"
      (by decide) (by decide) (by decide) (by decide) (by decide) rfl rfl⟩

theorem realize_bases_all_cached (c' : LayerClient) (fuel' : Nat) :
    ∀ (bs : List (String × Nat)) (h : Heap) (n : Nat),
    (∀ p ∈ bs, ((idAt h p.2).isSome : Bool) = true) →
    (realize_bases (layer_start c' fuel') h n bs).trace = [] ∧
    (realize_bases (layer_start c' fuel') h n bs).heap = h ∧
    (realize_bases (layer_start c' fuel') h n bs).counter = n := by
  intro bs
  induction bs with
  | nil => intro h n _; rw [realize_bases_nil]; exact ⟨rfl, rfl, rfl⟩
  | cons q rest ih =>
    intro h n hcached
    obtain ⟨dt, addr⟩ := q
    have hiq := hcached (dt, addr) (List.mem_cons_self _ _)
    obtain ⟨l, hl⟩ : ∃ l, idAt h addr = some l := by
      cases hx : idAt h addr with
      | none => rw [hx] at hiq; simp at hiq
      | some l => exact ⟨l, rfl⟩
    obtain ⟨o2, ho2, ho2l⟩ : ∃ o2, h.layers[addr]? = some o2 ∧ o2.layer_id = some l := by
      cases hx : h.layers[addr]? with
      | none => rw [idAt, hx] at hl; simp at hl
      | some o2 =>
        rw [idAt, hx] at hl
        exact ⟨o2, rfl, by simpa using hl⟩
    have ihr := ih h n (fun p hp => hcached p (List.mem_cons_of_mem _ hp))
    cases fuel' with
    | zero =>
      rw [realize_bases_cons_err (layer_start c' 0) h n dt addr rest
        "maximum recursion depth exceeded" rfl]
      exact ⟨rfl, rfl, rfl⟩
    | succ fuel2 =>
      have hstep := layer_start_cached c' fuel2 h n addr o2 l ho2 ho2l
      have hstepr : (layer_start c' (fuel2 + 1) h n addr).result = .ok l := by rw [hstep]
      have hsteph : (layer_start c' (fuel2 + 1) h n addr).heap = h := by rw [hstep]
      have hstepn : (layer_start c' (fuel2 + 1) h n addr).counter = n := by rw [hstep]
      have hstept : (layer_start c' (fuel2 + 1) h n addr).trace = [] := by rw [hstep]
      cases hres2 : (realize_bases (layer_start c' (fuel2 + 1))
          (layer_start c' (fuel2 + 1) h n addr).heap
          (layer_start c' (fuel2 + 1) h n addr).counter rest).result with
      | error e2 =>
        rw [realize_bases_cons_ok_err (layer_start c' (fuel2 + 1)) h n dt addr rest l e2
          hstepr hres2]
        refine ⟨?_, ?_, ?_⟩
        · show (layer_start c' (fuel2 + 1) h n addr).trace ++ _ = _
          rw [hstept, hsteph, hstepn, ihr.1]
          rfl
        · show (realize_bases _ _ _ rest).heap = h
          rw [hsteph, hstepn, ihr.2.1]
        · show (realize_bases _ _ _ rest).counter = n
          rw [hsteph, hstepn, ihr.2.2]
      | ok bls2 =>
        rw [realize_bases_cons_ok_ok (layer_start c' (fuel2 + 1)) h n dt addr rest l bls2
          hstepr hres2]
        refine ⟨?_, ?_, ?_⟩
        · show (layer_start c' (fuel2 + 1) h n addr).trace ++ _ = _
          rw [hstept, hsteph, hstepn, ihr.1]
          rfl
        · show (realize_bases _ _ _ rest).heap = h
          rw [hsteph, hstepn, ihr.2.1]
        · show (realize_bases _ _ _ rest).counter = n
          rw [hsteph, hstepn, ihr.2.2]

/-- C10: if the node's own `LayerCreate` RPC in `Layer.start` fails (its
base layers were realized, then the create call was rejected), the whole
run aborts with that error, the node's `layer_id` is still unset, every
instance's content attributes (tag, base layers, dockerfile commands,
context files) are unchanged, ids cached before the run survive, and every
base layer realized during the failed attempt keeps its freshly cached
layer id — so a retry of `start` issues no `LayerCreate` for any instance
whose id is cached, and every `LayerCreate` the retry issues is for the
node whose creation failed, not for its already-realized bases. -/
theorem claim_C10 (c c' : LayerClient) (rk : Nat → Nat) (fuel fuel' n n' a : Nat)
    (h : Heap) (o : LayerObj) (bls : List BaseLayer) (e : String)
    (hrk : rankedChk h rk = true)
    (ho : h.layers[a]? = some o) (hid : o.layer_id = none)
    (hres : (realize_bases (layer_start c fuel) h n o.base_layers).result = .ok bls)
    (hc : c (realize_bases (layer_start c fuel) h n o.base_layers).counter (reqOf o bls)
      = .error e) :
    (layer_start c (fuel + 1) h n a).result = .error e ∧
    idAt (layer_start c (fuel + 1) h n a).heap a = none ∧
    layersStrip (layer_start c (fuel + 1) h n a).heap = layersStrip h ∧
    (layer_start c (fuel + 1) h n a).heap.mounts = h.mounts ∧
    (∀ b l, idAt h b = some l → idAt (layer_start c (fuel + 1) h n a).heap b = some l) ∧
    (∀ p ∈ o.base_layers,
      ((idAt (layer_start c (fuel + 1) h n a).heap p.2).isSome : Bool) = true) ∧
    (∀ b l, idAt (layer_start c (fuel + 1) h n a).heap b = some l →
      cnt b (layer_start c' fuel' (layer_start c (fuel + 1) h n a).heap n' a).trace = 0) ∧
    (∀ ev ∈ (layer_start c' fuel' (layer_start c (fuel + 1) h n a).heap n' a).trace,
      ev.addr = a) := by
  have run1eq := layer_start_create_err c fuel h n a o bls e ho hid hres hc
  have hres1 : (layer_start c (fuel + 1) h n a).result = .error e := by rw [run1eq]
  have hheap : (layer_start c (fuel + 1) h n a).heap
      = (realize_bases (layer_start c fuel) h n o.base_layers).heap := by rw [run1eq]
  have hPrb := realize_bases_PRun (layer_start c fuel) (layer_start_PRun c fuel)
    o.base_layers h n
  have hsets := realize_bases_sets (layer_start c fuel)
    (fun h2 n2 a2 l2 => layer_start_ok_id c fuel h2 n2 a2 l2)
    (layer_start_PRun c fuel) o.base_layers h n bls hres
  have hida : idAt h a = none := by simp [idAt, ho, hid]
  have hcrux : cnt a (realize_bases (layer_start c fuel) h n o.base_layers).trace = 0 := by
    by_contra hne
    obtain ⟨ev, hev, heva⟩ := cnt_pos_exists a _ hne
    obtain ⟨p, hp, hle⟩ := realize_bases_rank (layer_start c fuel) rk
      (fun h2 n2 a2 => (layer_start_PRun c fuel h2 n2 a2).1)
      (fun h2 n2 a2 hrk2 => layer_start_rank c rk fuel h2 n2 a2 hrk2)
      o.base_layers h n hrk ev hev
    rw [heva] at hle
    exact absurd (lt_of_le_of_lt hle (rankedChk_get h rk a o hrk ho p hp)) (lt_irrefl _)
  have h1 : idAt (realize_bases (layer_start c fuel) h n o.base_layers).heap a = none :=
    (hPrb.2.2.2 a hcrux).trans hida
  obtain ⟨o2, ho2⟩ := layersStrip_isSome h _ hPrb.1 a o ho
  have ho2strip : stripId o2 = stripId o := by
    have := layersStrip_getElem? h _ hPrb.1 a
    rw [ho2, ho] at this
    simpa using this
  have hbly : o2.base_layers = o.base_layers := by
    have := congrArg LayerObj.base_layers ho2strip
    simpa [stripId] using this
  have ho2id : o2.layer_id = none := by
    rw [idAt, ho2] at h1
    simpa using h1
  refine ⟨hres1, by rw [hheap]; exact h1, by rw [hheap]; exact hPrb.1,
    by rw [hheap]; exact hPrb.2.1,
    fun b l hb => by rw [hheap]; exact (hPrb.2.2.1 b l hb).1,
    fun p hp => by rw [hheap]; exact hsets p hp,
    fun b l hb => ((layer_start_PRun c' fuel' (layer_start c (fuel + 1) h n a).heap
      n' a).2.2.1 b l hb).2, ?_⟩
  rw [hheap]
  cases fuel' with
  | zero => rw [layer_start_zero_eq]; intro ev hev; simp at hev
  | succ fuel2 =>
    have hcached : ∀ p ∈ o2.base_layers,
        ((idAt (realize_bases (layer_start c fuel) h n o.base_layers).heap p.2).isSome :
          Bool) = true := by
      rw [hbly]
      exact fun p hp => hsets p hp
    have hrbc := realize_bases_all_cached c' fuel2 o2.base_layers
      (realize_bases (layer_start c fuel) h n o.base_layers).heap n' hcached
    cases hres2 : (realize_bases (layer_start c' fuel2)
        (realize_bases (layer_start c fuel) h n o.base_layers).heap n'
        o2.base_layers).result with
    | error e2 =>
      rw [layer_start_bases_err c' fuel2 _ n' a o2 e2 ho2 ho2id hres2, hrbc.1]
      intro ev hev
      simp at hev
    | ok bls2 =>
      cases hc2 : c' (realize_bases (layer_start c' fuel2)
          (realize_bases (layer_start c fuel) h n o.base_layers).heap n'
          o2.base_layers).counter (reqOf o2 bls2) with
      | error e2 =>
        rw [layer_start_create_err c' fuel2 _ n' a o2 bls2 e2 ho2 ho2id hres2 hc2, hrbc.1]
        intro ev hev
        simp only [List.nil_append, List.mem_singleton] at hev
        rw [hev]
      | ok lid2 =>
        rw [layer_start_create_ok c' fuel2 _ n' a o2 bls2 lid2 ho2 ho2id hres2 hc2, hrbc.1]
        intro ev hev
        simp only [List.nil_append, List.mem_singleton] at hev
        rw [hev]

theorem claim_C10_witness :
    (rankedChk sharedHeap (fun x => x) = true ∧
      sharedHeap.layers[1]? = some ⟨none, none, [("base", 0)], ["FROM base"], []⟩ ∧
      (⟨none, none, [("base", 0)], ["FROM base"], []⟩ : LayerObj).layer_id = none ∧
      (realize_bases (layer_start (failAtLayerClient 1) 4) sharedHeap 0
        (⟨none, none, [("base", 0)], ["FROM base"], []⟩ : LayerObj).base_layers).result
        = .ok [⟨"base", 1000⟩] ∧
      failAtLayerClient 1
        (realize_bases (layer_start (failAtLayerClient 1) 4) sharedHeap 0
          (⟨none, none, [("base", 0)], ["FROM base"], []⟩ : LayerObj).base_layers).counter
        (reqOf ⟨none, none, [("base", 0)], ["FROM base"], []⟩ [⟨"base", 1000⟩])
        = .error "boom") ∧
    ((layer_start (failAtLayerClient 1) 5 sharedHeap 0 1).result = .error "boom" ∧
      idAt (layer_start (failAtLayerClient 1) 5 sharedHeap 0 1).heap 1 = none ∧
      layersStrip (layer_start (failAtLayerClient 1) 5 sharedHeap 0 1).heap
        = layersStrip sharedHeap ∧
      (layer_start (failAtLayerClient 1) 5 sharedHeap 0 1).heap.mounts
        = sharedHeap.mounts ∧
      (∀ b l, idAt sharedHeap b = some l →
        idAt (layer_start (failAtLayerClient 1) 5 sharedHeap 0 1).heap b = some l) ∧
      (∀ p ∈ (⟨none, none, [("base", 0)], ["FROM base"], []⟩ : LayerObj).base_layers,
        ((idAt (layer_start (failAtLayerClient 1) 5 sharedHeap 0 1).heap p.2).isSome :
          Bool) = true) ∧
      (∀ b l, idAt (layer_start (failAtLayerClient 1) 5 sharedHeap 0 1).heap b = some l →
        cnt b (layer_start freshLayerClient 5
          (layer_start (failAtLayerClient 1) 5 sharedHeap 0 1).heap 2 1).trace = 0) ∧
      (∀ ev ∈ (layer_start freshLayerClient 5
          (layer_start (failAtLayerClient 1) 5 sharedHeap 0 1).heap 2 1).trace,
        ev.addr = 1)) :=
  ⟨⟨by decide, by decide, by decide, rfl, rfl⟩,
    claim_C10 (failAtLayerClient 1) freshLayerClient (fun x => x) 4 5 0 2 1 sharedHeap
      ⟨none, none, [("base", 0)], ["FROM base"], []⟩ [⟨"base", 1000⟩] "boom"
      (by decide) (by decide) (by decide) rfl rfl⟩

